import Mathlib

/-!
# Verification of the syllabi configuration normalizer

A shallow embedding of `sheets_fetcher.py` and the JSON cache layer of
`build.py`.  Worksheet rows are modelled as association lists of string
cells, a spreadsheet as a map from worksheet title to a fetch result
(`Except Unit` models a raised/absent worksheet), and Python values that
make up a course configuration as the inductive type `PyVal`.  The JSON
round trip used by the cache (`json.dump` with `indent=2` / `json.load`)
is modelled character-for-character, including `ensure_ascii` escaping.
-/

set_option maxHeartbeats 1000000
set_option linter.unusedVariables false

namespace Syllabi

/-! ## Python string primitives -/
/-- Whitespace for `str.strip()` (the ASCII fragment Python strips). -/
def py_is_space (c : Char) : Bool :=
  c = ' ' || c = '\t' || c = '\n' || c = '\x0d' || c = '\x0b' || c = '\x0c'

/-- `str.strip()` on a character list. -/
def strip_chars (cs : List Char) : List Char :=
  ((cs.dropWhile py_is_space).reverse.dropWhile py_is_space).reverse

/-- Model of Python `str.strip()`. -/
def py_strip (s : String) : String := ⟨strip_chars s.data⟩

/-- ASCII lower-casing of one character (model of `str.lower` on the
data appearing in the sheets). -/
def py_lower_char (c : Char) : Char :=
  if 'A' ≤ c ∧ c ≤ 'Z' then Char.ofNat (c.toNat + 32) else c

/-- Model of Python `str.lower()`. -/
def py_lower (s : String) : String := ⟨s.data.map py_lower_char⟩

/-- ASCII upper-casing of one character. -/
def py_upper_char (c : Char) : Char :=
  if 'a' ≤ c ∧ c ≤ 'z' then Char.ofNat (c.toNat - 32) else c

/-- Model of Python `str.upper()`. -/
def py_upper (s : String) : String := ⟨s.data.map py_upper_char⟩

/-- Is `pat` a prefix of `cs`? -/
def is_prefix_of_l : List Char → List Char → Bool
  | [], _ => true
  | _ :: _, [] => false
  | a :: as, b :: bs => a = b && is_prefix_of_l as bs

/-- Does `pat` occur inside `cs`?  (`pat in s` for Python strings.) -/
def is_infix_of_l (pat : List Char) : List Char → Bool
  | [] => is_prefix_of_l pat []
  | c :: cs => is_prefix_of_l pat (c :: cs) || is_infix_of_l pat cs

/-- Model of the Python substring test `sub in s`. -/
def py_contains (sub s : String) : Bool := is_infix_of_l sub.data s.data

/-- Worker for `str.split(sep)` with a one-character separator:
splits on every occurrence and keeps empty parts, like Python. -/
def split_char_go (sep : Char) : List Char → List Char → List String
  | [], acc => [⟨acc.reverse⟩]
  | c :: cs, acc =>
    if c = sep then ⟨acc.reverse⟩ :: split_char_go sep cs []
    else split_char_go sep cs (c :: acc)

/-- Model of Python `s.split(sep)` for a one-character `sep`. -/
def py_split_char (sep : Char) (s : String) : List String :=
  split_char_go sep s.data []

/-- Worker splitting on the two-character separator `"- "`
(used by `_parse_objectives_list`). -/
def split_dash_space_go : List Char → List Char → List String
  | [], acc => [⟨acc.reverse⟩]
  | '-' :: ' ' :: cs, acc => ⟨acc.reverse⟩ :: split_dash_space_go cs []
  | c :: cs, acc => split_dash_space_go cs (c :: acc)

/-- Model of Python `s.split("- ")`. -/
def py_split_dash_space (s : String) : List String :=
  split_dash_space_go s.data []

/-- Worker for whitespace splitting. -/
def split_ws_go : List Char → List Char → List String
  | [], acc => [⟨acc.reverse⟩]
  | c :: cs, acc =>
    if py_is_space c then ⟨acc.reverse⟩ :: split_ws_go cs []
    else split_ws_go cs (c :: acc)

/-- Model of Python `s.split()` (split on whitespace, drop empties). -/
def py_split_ws (s : String) : List String :=
  (split_ws_go s.data []).filter (fun t => t ≠ "")

/-- Worker for `str.replace` on character lists (fuelled; the fuel is
the input length, enough because each step consumes one character or a
whole non-empty pattern occurrence). -/
def replace_go (pat subst : List Char) : Nat → List Char → List Char
  | 0, cs => cs
  | _ + 1, [] => []
  | fuel + 1, c :: cs =>
    if is_prefix_of_l pat (c :: cs) then
      subst ++ replace_go pat subst fuel ((c :: cs).drop pat.length)
    else
      c :: replace_go pat subst fuel cs

/-- Model of Python `s.replace(pat, subst)` for a non-empty `pat`. -/
def py_replace (pat subst s : String) : String :=
  ⟨replace_go pat.data subst.data s.data.length s.data⟩

/-- One-character replacement (`name.lower().replace(" ", "-")`). -/
def py_replace_char (a b : Char) (s : String) : String :=
  ⟨s.data.map (fun c => if c = a then b else c)⟩

/-- Model of `s.endswith(t)` for a one-character suffix. -/
def py_endswith_char (c : Char) (s : String) : Bool :=
  s.data.getLast? = some c

/-- Python truthiness of a string value (`if s:`). -/
def py_truthy (s : String) : Bool := s ≠ ""

/-- Python `a or b` on strings: the first operand when truthy. -/
def py_or (a b : String) : String := if a ≠ "" then a else b

/-! ## Python `int(...)` -/
def digit_val (c : Char) : Nat := c.toNat - 48

def is_ascii_digit (c : Char) : Bool := 48 ≤ c.toNat && c.toNat ≤ 57

/-- Digits with optional single underscores between digits, as accepted
by Python `int`, after the leading digit has been consumed. -/
def py_int_digits_go : Nat → List Char → Option Nat
  | acc, [] => some acc
  | acc, '_' :: c :: cs =>
    if is_ascii_digit c then py_int_digits_go (acc * 10 + digit_val c) cs else none
  | acc, c :: cs =>
    if is_ascii_digit c then py_int_digits_go (acc * 10 + digit_val c) cs else none

/-- Digit-string part of `int(...)`: non-empty ASCII digits with
underscore separators. -/
def py_int_digits : List Char → Option Nat
  | [] => none
  | c :: cs =>
    if is_ascii_digit c then py_int_digits_go (digit_val c) cs else none

/-- Model of Python `int(s)`: surrounding whitespace, an optional sign,
then digits.  `none` models the raised `ValueError`. -/
def py_int (s : String) : Option Int :=
  match strip_chars s.data with
  | '-' :: cs => (py_int_digits cs).map (fun n => -(n : Int))
  | '+' :: cs => (py_int_digits cs).map (fun n => (n : Int))
  | cs => (py_int_digits cs).map (fun n => (n : Int))

/-! ## Decimal rendering (`str(int)`, also used by the JSON encoder) -/
def digit_char (n : Nat) : Char := Char.ofNat (48 + n)

/-- Fuelled digit accumulator for decimal rendering. -/
def nat_digits_go : Nat → Nat → List Char → List Char
  | 0, _, acc => acc
  | _ + 1, 0, acc => acc
  | fuel + 1, n, acc => nat_digits_go fuel (n / 10) (digit_char (n % 10) :: acc)

/-- Decimal digits of a natural number. -/
def nat_digits (n : Nat) : List Char :=
  if n = 0 then ['0'] else nat_digits_go n n []

/-- Model of Python `str(i)` for an `int`. -/
def int_repr (i : Int) : String :=
  if i < 0 then ⟨'-' :: nat_digits i.natAbs⟩ else ⟨nat_digits i.toNat⟩

/-! ## Python values

The values that can appear in a Course Configuration: `None`, `bool`,
`int`, `str`, `list`, `dict` (string keys, insertion-ordered).  The
type is a mutual inductive so that all recursion over it is structural.
-/
mutual
inductive PyVal : Type where
  | pynone : PyVal
  | pybool (b : Bool) : PyVal
  | pyint (n : Int) : PyVal
  | pystr (s : String) : PyVal
  | pylist (xs : PyList) : PyVal
  | pydict (kvs : PyObj) : PyVal
  deriving DecidableEq

inductive PyList : Type where
  | nil : PyList
  | cons (v : PyVal) (vs : PyList) : PyList
  deriving DecidableEq

inductive PyObj : Type where
  | nil : PyObj
  | cons (k : String) (v : PyVal) (kvs : PyObj) : PyObj
  deriving DecidableEq
end

/-- Build a `PyList` from a Lean list. -/
def PyList.ofList : List PyVal → PyList
  | [] => .nil
  | v :: vs => .cons v (PyList.ofList vs)

/-- Build a `PyObj` from a Lean association list. -/
def PyObj.ofList : List (String × PyVal) → PyObj
  | [] => .nil
  | (k, v) :: kvs => .cons k v (PyObj.ofList kvs)

/-- The key sequence of a Python dict value. -/
def PyObj.keys : PyObj → List String
  | .nil => []
  | .cons k _ kvs => k :: PyObj.keys kvs

/-- Dict lookup (first occurrence; keys are unique in every dict the
code builds). -/
def PyObj.get? : PyObj → String → Option PyVal
  | .nil, _ => none
  | .cons k v kvs, key => if k = key then some v else PyObj.get? kvs key

/-! ## The JSON encoder (`json.dump(config, f, indent=2)`)

`json.dump` is used with `indent=2` and the default `ensure_ascii=True`,
so every non-ASCII and control character is `\uXXXX`-escaped (with
surrogate pairs above the BMP) and nesting is pretty-printed with
two-space indentation.
-/
def hex_digit_char (n : Nat) : Char :=
  if n < 10 then Char.ofNat (48 + n) else Char.ofNat (87 + n)

/-- A `\uXXXX` escape for a code unit `n < 0x10000`. -/
def u_escape (n : Nat) : List Char :=
  ['\\', 'u', hex_digit_char (n / 4096 % 16), hex_digit_char (n / 256 % 16),
   hex_digit_char (n / 16 % 16), hex_digit_char (n % 16)]

/-- `ensure_ascii` encoding of one character of a JSON string. -/
def escape_char (c : Char) : List Char :=
  if c = '"' then ['\\', '"']
  else if c = '\\' then ['\\', '\\']
  else if c = '\n' then ['\\', 'n']
  else if c = '\t' then ['\\', 't']
  else if c = '\x0d' then ['\\', 'r']
  else if c = '\x08' then ['\\', 'b']
  else if c = '\x0c' then ['\\', 'f']
  else if 0x20 ≤ c.toNat ∧ c.toNat < 0x7f then [c]
  else if c.toNat < 0x10000 then u_escape c.toNat
  else u_escape (0xd800 + (c.toNat - 0x10000) / 0x400) ++
       u_escape (0xdc00 + (c.toNat - 0x10000) % 0x400)

/-- JSON encoding of a Python string. -/
def encode_str (s : String) : List Char :=
  '"' :: (s.data.flatMap escape_char ++ ['"'])

/-- `indent=2` whitespace at nesting depth `d`. -/
def indent_at (d : Nat) : List Char := List.replicate (2 * d) ' '

mutual
/-- `json.dump` with `indent=2`, at nesting depth `d`. -/
def encode : Nat → PyVal → List Char
  | _, .pynone => ['n', 'u', 'l', 'l']
  | _, .pybool true => ['t', 'r', 'u', 'e']
  | _, .pybool false => ['f', 'a', 'l', 's', 'e']
  | _, .pyint n => (int_repr n).data
  | _, .pystr s => encode_str s
  | _, .pylist .nil => ['[', ']']
  | d, .pylist (.cons v vs) =>
    '[' :: '\n' :: (indent_at (d + 1) ++ encode_items d v vs)
  | _, .pydict .nil => ['{', '}']
  | d, .pydict (.cons k v kvs) =>
    '{' :: '\n' :: (indent_at (d + 1) ++ encode_members d k v kvs)
termination_by _ v => sizeOf v

/-- The items of a non-empty array, including the closing bracket. -/
def encode_items : Nat → PyVal → PyList → List Char
  | d, v, .nil => encode (d + 1) v ++ ('\n' :: (indent_at d ++ [']']))
  | d, v, .cons w ws =>
    encode (d + 1) v ++ (',' :: '\n' :: (indent_at (d + 1) ++ encode_items d w ws))
termination_by _ v vs => sizeOf v + sizeOf vs

/-- The members of a non-empty object, including the closing brace. -/
def encode_members : Nat → String → PyVal → PyObj → List Char
  | d, k, v, .nil =>
    encode_str k ++ (':' :: ' ' :: (encode (d + 1) v ++ ('\n' :: (indent_at d ++ ['}']))))
  | d, k, v, .cons k2 v2 kvs =>
    encode_str k ++ (':' :: ' ' :: (encode (d + 1) v ++
      (',' :: '\n' :: (indent_at (d + 1) ++ encode_members d k2 v2 kvs))))
termination_by _ _ v kvs => sizeOf v + sizeOf kvs
end

/-- The text `json.dump(v, f, indent=2)` writes. -/
def dumps (v : PyVal) : List Char := encode 0 v

/-! ## The JSON parser (`json.load`)

A recursive-descent model of CPython's strict JSON decoder, sufficient
for every document the encoder above can produce.  Fractions, exponents
and lone surrogates (which decode to floats or ill-formed text, neither
of which occurs in a Course Configuration) are modelled as failures.
The value recursion is fuelled; `loads` supplies one unit of fuel per
input character, which is always enough.
-/
def is_json_ws (c : Char) : Bool :=
  c = ' ' || c = '\t' || c = '\n' || c = '\x0d'

def skip_ws (cs : List Char) : List Char := cs.dropWhile is_json_ws

/-- The numeric value of one hex digit. -/
def hex_val (c : Char) : Option Nat :=
  if 48 ≤ c.toNat ∧ c.toNat ≤ 57 then some (c.toNat - 48)
  else if 97 ≤ c.toNat ∧ c.toNat ≤ 102 then some (c.toNat - 87)
  else if 65 ≤ c.toNat ∧ c.toNat ≤ 70 then some (c.toNat - 55)
  else none

/-- Four hex digits of a `\uXXXX` escape. -/
def hex4 (a b c d : Char) : Option Nat := do
  let x ← hex_val a
  let y ← hex_val b
  let z ← hex_val c
  let w ← hex_val d
  pure (x * 4096 + y * 256 + z * 16 + w)

/-- Continuation of a `\uXXXX` escape whose four digits decoded to `n`:
a high surrogate must be followed by a `\uXXXX` low surrogate, which is
recombined into one character.  A lone surrogate would decode to
ill-formed text, which never occurs in a configuration; it is modelled
as `none`. -/
def parse_u_after (n : Nat) (cs3 : List Char) : Option (Char × List Char) :=
  if 0xd800 ≤ n ∧ n < 0xdc00 then
    match cs3 with
    | e1 :: e2 :: k1 :: k2 :: k3 :: k4 :: cs4 =>
      if e1 = '\\' ∧ e2 = 'u' then
        match hex4 k1 k2 k3 k4 with
        | none => none
        | some m =>
          if 0xdc00 ≤ m ∧ m < 0xe000 then
            some (Char.ofNat (0x10000 + (n - 0xd800) * 0x400 + (m - 0xdc00)), cs4)
          else none
      else none
    | _ => none
  else if 0xdc00 ≤ n ∧ n < 0xe000 then none
  else some (Char.ofNat n, cs3)

/-- Decode one `\uXXXX` escape after its `\u` has been consumed:
returns the character and the remaining input. -/
def parse_u_escape : List Char → Option (Char × List Char)
  | h1 :: h2 :: h3 :: h4 :: cs3 =>
    match hex4 h1 h2 h3 h4 with
    | none => none
    | some n => parse_u_after n cs3
  | _ => none

/-- Body of a JSON string after the opening quote: returns the decoded
characters and the input after the closing quote.  Fuelled; one unit of
fuel per input character is always enough, since every step consumes at
least one character. -/
def parse_string_go : Nat → List Char → List Char → Option (List Char × List Char)
  | 0, _, _ => none
  | _ + 1, [], _ => none
  | fuel + 1, c :: cs, acc =>
    if c = '"' then some (acc.reverse, cs)
    else if c = '\\' then
      match cs with
      | [] => none
      | e :: cs2 =>
        if e = '"' then parse_string_go fuel cs2 ('"' :: acc)
        else if e = '\\' then parse_string_go fuel cs2 ('\\' :: acc)
        else if e = '/' then parse_string_go fuel cs2 ('/' :: acc)
        else if e = 'b' then parse_string_go fuel cs2 ('\x08' :: acc)
        else if e = 'f' then parse_string_go fuel cs2 ('\x0c' :: acc)
        else if e = 'n' then parse_string_go fuel cs2 ('\n' :: acc)
        else if e = 'r' then parse_string_go fuel cs2 ('\x0d' :: acc)
        else if e = 't' then parse_string_go fuel cs2 ('\t' :: acc)
        else if e = 'u' then
          match parse_u_escape cs2 with
          | none => none
          | some (ch, cs3) => parse_string_go fuel cs3 (ch :: acc)
        else none
    else if c.toNat < 0x20 then none
    else parse_string_go fuel cs (c :: acc)

/-- Greedily consume decimal digits, accumulating their value. -/
def parse_digits_go : List Char → Nat → Nat × List Char
  | [], acc => (acc, [])
  | c :: cs, acc =>
    if is_ascii_digit c then parse_digits_go cs (acc * 10 + digit_val c)
    else (acc, c :: cs)

/-- Does the remaining input continue a number with a fraction or an
exponent?  (Those would decode to Python floats, which never occur in
a configuration; the model treats them as failures.) -/
def is_float_cont : List Char → Bool
  | [] => false
  | c :: _ => c = '.' || c = 'e' || c = 'E'

/-- Package the digits of a parsed JSON number. -/
def finish_num (neg : Bool) (n : Nat) (rest : List Char) : Option (PyVal × List Char) :=
  if is_float_cont rest then none
  else some (.pyint (if neg then -(n : Int) else (n : Int)), rest)

/-- A JSON number (integers only; see `is_float_cont`). -/
def parse_number (cs : List Char) : Option (PyVal × List Char) :=
  match cs with
  | [] => none
  | c :: cs2 =>
    if c = '-' then
      match cs2 with
      | [] => none
      | c2 :: _ =>
        if is_ascii_digit c2 then
          match parse_digits_go cs2 0 with
          | (n, rest) => finish_num true n rest
        else none
    else if is_ascii_digit c then
      match parse_digits_go (c :: cs2) 0 with
      | (n, rest) => finish_num false n rest
    else none

/-- Recognize a literal keyword (`true`, `false`, `null`). -/
def expect_lit (lit : List Char) (cs : List Char) (v : PyVal) : Option (PyVal × List Char) :=
  if is_prefix_of_l lit cs then some (v, cs.drop lit.length) else none

mutual
/-- Parse one JSON value (after skipping leading whitespace). -/
def parse_value : Nat → List Char → Option (PyVal × List Char)
  | 0, _ => none
  | fuel + 1, cs =>
    match skip_ws cs with
    | [] => none
    | c :: rest =>
      if c = '"' then
        match parse_string_go rest.length rest [] with
        | some (l, r) => some (.pystr ⟨l⟩, r)
        | none => none
      else if c = '[' then
        match skip_ws rest with
        | [] => none
        | c2 :: rest2 =>
          if c2 = ']' then some (.pylist .nil, rest2)
          else
            match parse_items fuel (c2 :: rest2) with
            | none => none
            | some (vs, r) => some (.pylist vs, r)
      else if c = '{' then
        match skip_ws rest with
        | [] => none
        | c2 :: rest2 =>
          if c2 = '}' then some (.pydict .nil, rest2)
          else
            match parse_members fuel (c2 :: rest2) with
            | none => none
            | some (kvs, r) => some (.pydict kvs, r)
      else if c = 't' then expect_lit ['r', 'u', 'e'] rest (.pybool true)
      else if c = 'f' then expect_lit ['a', 'l', 's', 'e'] rest (.pybool false)
      else if c = 'n' then expect_lit ['u', 'l', 'l'] rest .pynone
      else parse_number (c :: rest)

/-- Parse the items of a non-empty array, up to and including `]`. -/
def parse_items : Nat → List Char → Option (PyList × List Char)
  | 0, _ => none
  | fuel + 1, cs =>
    match parse_value fuel cs with
    | none => none
    | some (v, rest) =>
      match skip_ws rest with
      | [] => none
      | c :: r =>
        if c = ',' then
          match parse_items fuel r with
          | none => none
          | some (vs, r2) => some (.cons v vs, r2)
        else if c = ']' then some (.cons v .nil, r)
        else none

/-- Parse the members of a non-empty object, up to and including `}`. -/
def parse_members : Nat → List Char → Option (PyObj × List Char)
  | 0, _ => none
  | fuel + 1, cs =>
    match skip_ws cs with
    | [] => none
    | c :: rest =>
      if c = '"' then
        match parse_string_go rest.length rest [] with
        | none => none
        | some (k, rest1) =>
          match skip_ws rest1 with
          | [] => none
          | c2 :: rest2 =>
            if c2 = ':' then
              match parse_value fuel rest2 with
              | none => none
              | some (v, rest3) =>
                match skip_ws rest3 with
                | [] => none
                | c3 :: r =>
                  if c3 = ',' then
                    match parse_members fuel r with
                    | none => none
                    | some (kvs, r2) => some (.cons ⟨k⟩ v kvs, r2)
                  else if c3 = '}' then some (.cons ⟨k⟩ v .nil, r)
                  else none
            else none
      else none
end

/-- Model of `json.load(f)`: parse one document and require only
whitespace after it. -/
def loads (cs : List Char) : Option PyVal :=
  match parse_value (cs.length + 1) cs with
  | some (v, rest) => if skip_ws rest = [] then some v else none
  | none => none

/-! ## Round-trip proof: decimal digits and numbers -/
/-- Specification form of the decimal digits of `n`. -/
def nat_digits_spec (n : Nat) : List Char :=
  if h : n = 0 then [] else nat_digits_spec (n / 10) ++ [digit_char (n % 10)]
termination_by n
decreasing_by exact Nat.div_lt_self (Nat.pos_of_ne_zero h) (by omega)

/-- Input positions where a JSON number may legitimately end. -/
def num_stop : List Char → Prop
  | [] => True
  | c :: _ => is_ascii_digit c = false ∧ c ≠ '.' ∧ c ≠ 'e' ∧ c ≠ 'E'

/-! ## Round-trip proof: whole documents -/
mutual
/-- Recursion budget a value needs from the parser. -/
def pmeasure : PyVal → Nat
  | .pynone => 1
  | .pybool _ => 1
  | .pyint _ => 1
  | .pystr _ => 1
  | .pylist xs => 2 + lmeasure xs
  | .pydict kvs => 2 + omeasure kvs

def lmeasure : PyList → Nat
  | .nil => 0
  | .cons v vs => 1 + pmeasure v + lmeasure vs

def omeasure : PyObj → Nat
  | .nil => 0
  | .cons _ v kvs => 1 + pmeasure v + omeasure kvs
end

/-! ## The JSON cache (`build.py`: `save_config_to_cache`, `load_config_from_cache`)

`DATA_DIR` is modelled as a map from `(term, course)` to the text of
`data/term/course.json`, when that file exists. -/
def CacheStore : Type := String → String → Option (List Char)

/-- `save_config_to_cache(term, course, config)`: create the directory as
needed and write `json.dump(config, f, indent=2)` to `data/term/course.json`. -/
def save_config_to_cache (store : CacheStore) (term course : String)
    (config : PyVal) : CacheStore :=
  fun t c => if t = term ∧ c = course then some (dumps config) else store t c

/-- `load_config_from_cache(term, course)`: raise `FileNotFoundError` when the
cache file is absent (`none`), else return `json.load(f)`. -/
def load_config_from_cache (store : CacheStore) (term course : String) :
    Option PyVal :=
  match store term course with
  | none => none
  | some text => loads text

/-! ## Worksheet rows and the spreadsheet environment

`get_all_values` turns a worksheet into one dict per row, keyed by the
header row with empty headers skipped; a row is an association list of
cells in header order.  `get_all_records` either returns those rows or
raises (a missing worksheet, a failed fetch): `Except Unit` models the
raised exception.  Warnings the fetchers print are returned as a list of
the printed prefixes (the interpolated exception text is dropped).
-/
def Record : Type := List (String × String)

def Env : Type := String → Except Unit (List Record)

/-- `record.get(key)` (the cell, when the header is present). -/
def rget? (r : Record) (k : String) : Option String :=
  (r.find? (fun kv => kv.1 == k)).map (fun kv => kv.2)

/-- `record.get(key, dflt)`. -/
def rget (r : Record) (k dflt : String) : String := (rget? r k).getD dflt

/-- `key in record`. -/
def rhas (r : Record) (k : String) : Bool := (rget? r k).isSome

/-! ## Python dicts as insertion-ordered association lists -/
def assocGet? {κ α : Type} [BEq κ] (m : List (κ × α)) (k : κ) : Option α :=
  (m.find? (fun kv => kv.1 == k)).map (fun kv => kv.2)

def assocHas {κ α : Type} [BEq κ] (m : List (κ × α)) (k : κ) : Bool :=
  (assocGet? m k).isSome

/-- `d[k] = v`: replace in place when the key exists, else append. -/
def assocSet {κ α : Type} [BEq κ] (m : List (κ × α)) (k : κ) (v : α) :
    List (κ × α) :=
  if assocHas m k then m.map (fun kv => if kv.1 == k then (k, v) else kv)
  else m ++ [(k, v)]

/-- Mutate the value stored under an existing key in place. -/
def assocUpdate {κ α : Type} [BEq κ] (m : List (κ × α)) (k : κ) (f : α → α) :
    List (κ × α) :=
  m.map (fun kv => if kv.1 == k then (kv.1, f kv.2) else kv)

/-- `if k not in d: d[k] = []` followed by `d[k].append(v)`. -/
def assocAppend {α : Type} (m : List (String × List α)) (k : String) (v : α) :
    List (String × List α) :=
  let m2 := if assocHas m k then m else m ++ [(k, [])]
  assocUpdate m2 k (fun xs => xs ++ [v])

/-! ## Stable sorting (`sorted` with a `key`) -/
def insert_by {α : Type} (key : α → Int) (x : α) : List α → List α
  | [] => [x]
  | y :: ys => if key x ≤ key y then x :: y :: ys else y :: insert_by key x ys

/-- `sorted(xs, key=key)`: stable, ascending. -/
def sort_by_key {α : Type} (key : α → Int) : List α → List α
  | [] => []
  | x :: xs => insert_by key x (sort_by_key key xs)

/-! ## Pure helpers of `SheetsFetcher` -/
/-- The `"â€¢"` literal of the source file (a mojibake bullet: three
characters). -/
def bullet_str : String := ⟨['â', '€', '¢']⟩

/-- Splitter on the three-character bullet separator. -/
def split_bullet_go : List Char → List Char → List String
  | [], acc => [⟨acc.reverse⟩]
  | 'â' :: '€' :: '¢' :: cs, acc =>
    ⟨acc.reverse⟩ :: split_bullet_go cs []
  | c :: cs, acc => split_bullet_go cs (c :: acc)

/-- `s.split("â€¢")`. -/
def py_split_bullet (s : String) : List String := split_bullet_go s.data []

/-- `item[0] in "-â€¢*"` then `item[1:].strip()`: strip one leading
bullet/dash/star marker (the marker set is the five characters of the
source literal). -/
def strip_marker (item : String) : String :=
  match item.data with
  | [] => item
  | c :: cs =>
    if c = '-' ∨ c = 'â' ∨ c = '€' ∨ c = '¢' ∨ c = '*' then
      py_strip ⟨cs⟩
    else item

/-- The clean-up loop of `_parse_objectives_list`: strip, drop one
leading marker, keep non-empty items. -/
def clean_objective_items (items : List String) : List String :=
  (items.map (fun it => strip_marker (py_strip it))).filter py_truthy

/-- `_parse_objectives_list`: delimiters tried in order newline,
semicolon, bullet, `"- "`, else a single item. -/
def parse_objectives_list (objectives_str : String) : List String :=
  if ¬ py_truthy objectives_str then []
  else
    let items :=
      if py_contains "\n" objectives_str then py_split_char '\n' objectives_str
      else if py_contains ";" objectives_str then py_split_char ';' objectives_str
      else if py_contains bullet_str objectives_str then py_split_bullet objectives_str
      else if py_contains "- " objectives_str then py_split_dash_space objectives_str
      else [objectives_str]
    clean_objective_items items

/-- `_get_time_period`. -/
def get_time_period (time_str : String) : String :=
  if ¬ py_truthy time_str then "Morning"
  else
    let start_time := py_strip ((py_split_char '-' time_str).headD "")
    let start_time_lower := py_lower start_time
    let hour_part := py_strip ((py_split_char ':' start_time).headD "")
    match py_int hour_part with
    | none => "Morning"
    | some h =>
      let hour :=
        if py_contains "pm" start_time_lower ∧ h ≠ 12 then h + 12
        else if py_contains "am" start_time_lower ∧ h = 12 then 0
        else h
      if hour < 10 then "Morning"
      else if hour < 12 then "Late Morning"
      else if hour < 17 then "Afternoon"
      else "Evening"

/-- `_calculate_time_range`. -/
def calculate_time_range (times : List String) : String :=
  if times = [] then ""
  else
    py_strip ((py_split_char '-' (times.headD "")).headD "") ++ " - " ++
      py_strip ((py_split_char '-' (times.getLastD "")).getLastD "")

/-- `_format_display_date`: returns its input on both branches. -/
def format_display_date (date_str : String) : String :=
  if (["Monday", "Tuesday", "Wednesday", "Thursday", "Friday"]).any
      (fun day => py_contains day date_str) then date_str
  else date_str

/-- `_format_short_date`: drop a leading day-of-week, then strip. -/
def format_short_date (date_str : String) : String :=
  py_strip ((["Monday, ", "Tuesday, ", "Wednesday, ", "Thursday, ",
    "Friday, ", "Saturday, ", "Sunday, "]).foldl
      (fun s day => py_replace day "" s) date_str)

/-- The section-number splitter shared verbatim by `_fetch_instructors`
and `_fetch_lecture_sections`: comma, then semicolon, then whitespace,
else a single number. -/
def parse_section_nums (sections_str : String) : List String :=
  if py_contains "," sections_str then
    ((py_split_char ',' sections_str).map py_strip).filter py_truthy
  else if py_contains ";" sections_str then
    ((py_split_char ';' sections_str).map py_strip).filter py_truthy
  else if py_contains " " sections_str then
    ((py_split_ws sections_str).map py_strip).filter py_truthy
  else [py_strip sections_str]

/-- `record.get("ID", "").strip() or name.lower().replace(" ", "-")`. -/
def instructor_default_id (name raw_id : String) : String :=
  py_or (py_strip raw_id) (py_replace_char ' ' '-' (py_lower name))

/-! ## The shapes the fetchers build -/
structure SectionDetail where
  number : String
  days : String
  time : String
  location : String
  deriving DecidableEq

/-- One office-hours entry (the Python dict key `type` is the field
`ohtype`). -/
structure OfficeHour where
  day : String
  time : String
  location : String
  ohtype : String
  deriving DecidableEq

structure Instructor where
  id : String
  name : String
  title : String
  email : String
  office : String
  pronouns : Option String
  sections : List SectionDetail
  office_hours : List OfficeHour
  deriving DecidableEq

structure SectionEntry where
  number : String
  time : String
  location : String
  instructor : String
  instructor_id : String
  deriving DecidableEq

structure PeriodData where
  name : String
  icon : String
  time_range : String
  sections : List SectionEntry
  deriving DecidableEq

structure TuesdaySection where
  identifier : String
  time : String
  location : String
  deriving DecidableEq

structure Midterm where
  name : String
  date : String
  time : String
  location : String
  makeup_date : String
  makeup_time : String
  makeup_location : String
  deriving DecidableEq

structure MakeupSession where
  name : String
  date : String
  time : String
  location : String
  notes : String
  deriving DecidableEq

/-- The `final` slot: the initial one-key dict, or the three-key dict a
matching row installs. -/
inductive FinalExam where
  | initial : FinalExam
  | fromRow (date time location : String) : FinalExam
  deriving DecidableEq

structure ExamsResult where
  midterms : List Midterm
  final : FinalExam
  midterm1_display : String
  midterm2_display : String
  makeup_quiz_sessions : List MakeupSession
  deriving DecidableEq

structure DateEntry where
  event : String
  date : String
  deriving DecidableEq

structure ImportantDates where
  all : List DateEntry
  regular_drop : String
  late_drop : String
  finals_week : String
  deriving DecidableEq

structure QuizHour where
  time : String
  location : String
  deriving DecidableEq

/-- A grade threshold: `None` (null) models a missing numeric field. -/
structure Threshold where
  complete : Option Int
  proficient : Option Int
  deriving DecidableEq

structure XpActivity where
  name : String
  value : String
  details : String
  deriving DecidableEq

structure XpBand where
  threshold : Int
  mods : Int
  label : String
  max_mods : Int
  deriving DecidableEq

structure Grading where
  thresholds : List (String × Threshold)
  math197_thresholds : List (String × Threshold)
  modifications : List XpBand
  activities : List XpActivity
  deriving DecidableEq

/-- A learning target (the Python dict key `type` is the field `ttype`;
`none` models a conditionally absent key). -/
structure LearningTarget where
  id : String
  ttype : String
  title : String
  description : String
  f_description : Option String
  adv_description : Option String
  notes : Option String
  f_objectives : Option (List String)
  adv_objectives : Option (List String)
  deriving DecidableEq

structure LtConfig where
  total : Nat
  detailed_list_url : String
  essential : List Int
  targets : List LearningTarget
  deriving DecidableEq

structure ExamSession where
  date : String
  exam_type : String
  session_type : String
  learning_targets : List String
  notes : String
  deriving DecidableEq

structure WeekEntry where
  week : Int
  tuesday_date : String
  tuesday_lts : List String
  tuesday_new_lts : List String
  tuesday_notes : String
  thursday_date : String
  thursday_lts : List String
  thursday_new_lts : List String
  thursday_notes : String
  exam_sessions : List ExamSession
  deriving DecidableEq

structure LaEntry where
  days : String
  time : String
  deriving DecidableEq

/-! ## `_fetch_course_info` -/
/-- The prerequisites splitter of `_fetch_course_info`: newline, then
pipe, else a single stripped item. -/
def parse_prerequisites (prereqs_raw : String) : List String :=
  if py_truthy prereqs_raw then
    if py_contains "\n" prereqs_raw then
      ((py_split_char '\n' prereqs_raw).map py_strip).filter py_truthy
    else if py_contains "|" prereqs_raw then
      ((py_split_char '|' prereqs_raw).map py_strip).filter py_truthy
    else [py_strip prereqs_raw]
  else []

def fetch_course_info (env : Env) (course_code term : String) :
    PyVal × List String :=
  match env "Course Info" with
  | .error _ =>
    (.pydict (.ofList [("code", .pystr course_code), ("term", .pystr term),
      ("title", .pystr ""), ("includes_math197", .pybool false),
      ("prerequisites", .pylist .nil)]),
     ["Warning: Could not fetch Course Info"])
  | .ok records =>
    let info := records.foldl (fun info r =>
      if rhas r "Setting" ∧ rhas r "Value" then
        assocSet info (rget r "Setting" "") (rget r "Value" "")
      else
        match r with
        | (k1, _) :: (k2, _) :: _ => assocSet info (rget r k1 "") (rget r k2 "")
        | _ => info) []
    let course_name := (assocGet? info "Course Name").getD ""
    let course_title := (assocGet? info "Course Title").getD ""
    let display_code := if py_truthy course_name then py_upper course_name else course_code
    let prerequisites := parse_prerequisites ((assocGet? info "Prerequisites").getD "")
    (.pydict (.ofList [
      ("code", .pystr display_code),
      ("title", .pystr course_title),
      ("term", .pystr ((assocGet? info "Term").getD term)),
      ("includes_math197", .pybool ((["true", "yes", "1"] : List String).contains
        (py_lower ((assocGet? info "Includes Math 197").getD "")))),
      ("course_hub_url", .pystr ((assocGet? info "Course Hub URL").getD "")),
      ("prerequisites", .pylist (PyList.ofList (prerequisites.map .pystr)))]), [])

/-! ## `_fetch_instructors` -/
/-- One instructor record, enriched from the section-details and
office-hours maps. -/
def mk_instructor (section_details : List (String × SectionDetail))
    (office_hours_by_instructor : List (String × List OfficeHour))
    (r : Record) : Instructor :=
  let instructor_name := rget r "Name" ""
  let sections_str := rget r "Sections" ""
  let sections :=
    if py_truthy sections_str then
      (parse_section_nums sections_str).map (fun sec_num =>
        match assocGet? section_details sec_num with
        | some d => d
        | none => ⟨sec_num, "", "", ""⟩)
    else []
  { id := instructor_default_id instructor_name (rget r "ID" ""),
    name := instructor_name,
    title := rget r "Title" "Instructor",
    email := rget r "Email" "",
    office := rget r "Office" "",
    pronouns := if py_truthy (rget r "Pronouns" "") then
        some (rget r "Pronouns" "")
      else none,
    sections := sections,
    office_hours := (assocGet? office_hours_by_instructor instructor_name).getD [] }

def fetch_instructors (env : Env) : List Instructor × List String :=
  let sdPair : List (String × SectionDetail) × List String :=
    match env "Lecture Sections" with
    | .error _ =>
      ([], ["Warning: Could not fetch Lecture Sections for instructor enrichment"])
    | .ok lecture_records =>
      (lecture_records.foldl (fun m r =>
        let section_num := py_strip (rget r "Section" "")
        if py_truthy section_num then
          assocSet m section_num
            ⟨section_num, rget r "Days" "", rget r "Time" "", rget r "Location" "TBD"⟩
        else m) [], [])
  let ohPair : List (String × List OfficeHour) × List String :=
    match env "Office Hours" with
    | .error _ => ([], ["Warning: Could not fetch Office Hours"])
    | .ok oh_records =>
      (oh_records.foldl (fun m r =>
        let instructor_name := py_strip (rget r "Instructor" "")
        if ¬ py_truthy instructor_name then m
        else assocAppend m instructor_name
          ⟨rget r "Day" "", rget r "Time" "", rget r "Location" "",
           rget r "Type" "Drop-in"⟩) [], [])
  match env "Instructors" with
  | .error _ => ([], sdPair.2 ++ ohPair.2 ++ ["Warning: Could not fetch Instructors"])
  | .ok records =>
    (records.foldl (fun acc r =>
      if ¬ py_truthy (rget r "Name" "") then acc
      else acc ++ [mk_instructor sdPair.1 ohPair.1 r]) [],
     sdPair.2 ++ ohPair.2)

/-! ## `_fetch_lecture_sections` -/
/-- The period-icon table literal, mojibake as in the source file. -/
def icon_table : List (String × String) :=
  [("Morning", ⟨['ð', 'Ÿ', 'Œ', '…']⟩),
   ("Late Morning", ⟨['â', '˜', '€', 'ï', '¸']⟩),
   ("Afternoon", ⟨['ð', 'Ÿ', 'Œ', 'ž']⟩),
   ("Evening", ⟨['ð', 'Ÿ', 'Œ', '™']⟩)]

/-- The `.get(period, ...)` default icon. -/
def default_icon : String := ⟨['ð', 'Ÿ', '“', 'š']⟩

def period_order : List String := ["Morning", "Late Morning", "Afternoon", "Evening"]

def str_index : List String → String → Option Nat
  | [], _ => none
  | y :: ys, x => if y = x then some 0 else (str_index ys x).map (fun i => i + 1)

/-- The sort key of `sorted(sections_by_period.values(), key=...)`. -/
def period_sort_key (name : String) : Int :=
  let base := py_replace " Class" "" (py_replace " Classes" "" name)
  match str_index period_order base with
  | some i => (i : Int)
  | none => 99

def fetch_lecture_sections (env : Env) : List PeriodData × List String :=
  let s2iPair : List (String × (String × String)) × List String :=
    match env "Instructors" with
    | .error _ => ([], ["Warning: Could not fetch Instructors for section enrichment"])
    | .ok instructor_records =>
      (instructor_records.foldl (fun m r =>
        let instructor_name := rget r "Name" ""
        let instructor_id := instructor_default_id instructor_name (rget r "ID" "")
        let sections_str := rget r "Sections" ""
        if py_truthy sections_str ∧ py_truthy instructor_name then
          (parse_section_nums sections_str).foldl
            (fun m2 sec_num => assocSet m2 sec_num (instructor_name, instructor_id)) m
        else m) [], [])
  match env "Lecture Sections" with
  | .error _ => ([], s2iPair.2 ++ ["Warning: Could not fetch Lecture Sections"])
  | .ok records =>
    let sections_by_period := records.foldl (fun m r =>
      if ¬ py_truthy (rget r "Section" "") then m
      else
        let section_num := rget r "Section" ""
        let time_str := rget r "Time" ""
        let period := get_time_period time_str
        let m := if assocHas m period then m
          else m ++ [(period,
            ({ name := (if period ≠ "Late Morning" then period ++ " Classes"
                else "Late Morning Class"),
               icon := (assocGet? icon_table period).getD default_icon,
               time_range := "",
               sections := [] } : PeriodData))]
        let raw_name := rget r "Instructor" ""
        let raw_id := rget r "Instructor ID" ""
        let ni :=
          if ¬ py_truthy raw_name ∨ raw_name = "TBD" then
            match assocGet? s2iPair.1 section_num with
            | some ni => ni
            | none => ("TBD", raw_id)
          else (raw_name, raw_id)
        assocUpdate m period (fun pd =>
          { pd with sections := pd.sections ++
              [⟨section_num, time_str, rget r "Location" "TBD", ni.1, ni.2⟩] })) []
    let withRanges := sections_by_period.map (fun kv =>
      let times := (kv.2.sections.filter (fun s => py_truthy s.time)).map
        (fun s => s.time)
      if times ≠ [] then (kv.1, { kv.2 with time_range := calculate_time_range times })
      else kv)
    (sort_by_key (fun pd => period_sort_key pd.name) (withRanges.map (fun kv => kv.2)),
     s2iPair.2)

/-! ## `_fetch_tuesday_sections` -/
def fetch_tuesday_sections (env : Env) : List TuesdaySection × List String :=
  match env "Session Configuration" with
  | .error _ => ([], ["Warning: Could not fetch Session Configuration"])
  | .ok records =>
    (records.foldl (fun acc r =>
      let session_type := rget r "Session Type" ""
      let identifier := rget r "Identifier" ""
      if py_contains "Recitation" session_type ∨ py_endswith_char 'R' identifier then
        acc ++ [⟨identifier, rget r "Time" "", rget r "Location" "TBD"⟩]
      else acc) [], [])

/-! ## `_fetch_exams` -/
def is_midterm1_row (r : Record) : Bool :=
  py_contains "Midterm 1" (rget r "Event" "") || py_contains "Midterm One" (rget r "Event" "")

def is_midterm2_row (r : Record) : Bool :=
  py_contains "Midterm 2" (rget r "Event" "") || py_contains "Midterm Two" (rget r "Event" "")

def is_makeup_row (r : Record) : Bool :=
  py_contains "Make-up Quiz Session" (rget r "Event" "") ||
    py_contains "Makeup Quiz Session" (rget r "Event" "")

def is_final_row (r : Record) : Bool := py_contains "Final" (rget r "Event" "")

def exams_init : ExamsResult := ⟨[], .initial, "TBD", "TBD", []⟩

def mk_midterm (nm : String) (r : Record) : Midterm :=
  ⟨nm, rget r "Date" "", rget r "Time" "", rget r "Location" "",
   rget r "Makeup Date" "", rget r "Makeup Time" "", rget r "Makeup Location" ""⟩

/-- One iteration of the `elif` chain of `_fetch_exams`. -/
def exams_step (st : ExamsResult) (r : Record) : ExamsResult :=
  if is_midterm1_row r then
    { st with midterms := st.midterms ++ [mk_midterm "Midterm One" r],
              midterm1_display := format_display_date (rget r "Date" "") }
  else if is_midterm2_row r then
    { st with midterms := st.midterms ++ [mk_midterm "Midterm Two" r],
              midterm2_display := format_display_date (rget r "Date" "") }
  else if is_makeup_row r then
    { st with makeup_quiz_sessions := st.makeup_quiz_sessions ++
        [⟨rget r "Event" "", rget r "Date" "", rget r "Time" "",
          rget r "Location" "", rget r "Notes" ""⟩] }
  else if is_final_row r then
    { st with final := (FinalExam.fromRow (rget r "Date" "") (rget r "Time" "")
        (rget r "Location" "")) }
  else st

def fetch_exams (env : Env) : ExamsResult × List String :=
  match env "Exams" with
  | .error _ => (exams_init, ["Warning: Could not fetch exams"])
  | .ok records => (records.foldl exams_step exams_init, [])

/-! ## `_fetch_important_dates` -/
def fetch_important_dates (env : Env) : ImportantDates × List String :=
  match env "Important Dates" with
  | .error _ => (⟨[], "TBD", "TBD", "TBD"⟩, ["Warning: Could not fetch important dates"])
  | .ok records =>
    let all_dates := records.foldl (fun acc r =>
      let event := py_strip (rget r "Event" "")
      let date_str := py_strip (rget r "Date" "")
      if py_truthy event ∧ py_truthy date_str then
        acc ++ [(⟨event, date_str⟩ : DateEntry)]
      else acc) []
    (records.foldl (fun (d : ImportantDates) r =>
      let event := py_lower (rget r "Event" "")
      let date_str := rget r "Date" ""
      if py_contains "regular drop" event ∨ py_contains "drop deadline" event then
        { d with regular_drop := format_short_date date_str }
      else if py_contains "late drop" event then
        { d with late_drop := format_short_date date_str }
      else if py_contains "finals" event then
        { d with finals_week := date_str }
      else d) ⟨all_dates, "", "", ""⟩, [])

/-! ## `_fetch_policies` -/
def fetch_policies (env : Env) : List QuizHour × List String :=
  match env "Session Configuration" with
  | .error _ => ([], ["Warning: Could not fetch quiz hours"])
  | .ok records =>
    (records.foldl (fun acc r =>
      if py_contains "Quiz Hour" (rget r "Session Type" "") then
        acc ++ [(⟨rget r "Time" "", rget r "Location" ""⟩ : QuizHour)]
      else acc) [], [])

/-! ## `_fetch_grading`

`record.get(k, 0)` yields the int `0` when the header is absent, else
the cell string; `Cell` distinguishes the two so that truthiness and
`int(...)` behave as in Python.  A failed `int(...)` raises, aborting
the enclosing `try` and keeping whatever the loop had already placed.
-/
inductive Cell where
  | str (s : String) : Cell
  | intz : Cell
  deriving DecidableEq

def cell_get (r : Record) (k : String) : Cell :=
  match rget? r k with
  | some s => .str s
  | none => .intz

def cell_truthy : Cell → Bool
  | .str s => py_truthy s
  | .intz => false

/-- Python `a or b`. -/
def cell_or (a b : Cell) : Cell := if cell_truthy a then a else b

/-- Python `int(...)` on a cell ( `none` models the raised `ValueError`). -/
def int_of_cell : Cell → Option Int
  | .str s => py_int s
  | .intz => some 0

/-- The `complete` field of a threshold row: `some t` is the computed
value (where `t = none` is Python `None`), `none` a raised `ValueError`. -/
def threshold_complete (r : Record) : Option (Option Int) :=
  if cell_truthy (cell_or (.str (rget r "Number Complete" "")) (.str (rget r "Min Complete" ""))) then
    match int_of_cell (cell_or (cell_get r "Number Complete") (cell_get r "Min Complete")) with
    | some i => some (some i)
    | none => none
  else some none

/-- The `proficient` field of a threshold row. -/
def threshold_proficient (r : Record) : Option (Option Int) :=
  if cell_truthy (cell_or (.str (rget r "Number Proficient" "")) (.str (rget r "Min Proficient" ""))) then
    match int_of_cell (cell_or (cell_get r "Number Proficient") (cell_get r "Min Proficient")) with
    | some i => some (some i)
    | none => none
  else some none

/-- The Grade Thresholds loop.  The `Bool` records whether an exception
aborted it (the rest of the rows left unplaced). -/
def thresholds_loop :
    List Record → List (String × Threshold) × List (String × Threshold) →
      (List (String × Threshold) × List (String × Threshold)) × Bool
  | [], st => (st, false)
  | r :: rs, st =>
    let grade := rget r "Grade" ""
    if ¬ py_truthy grade then thresholds_loop rs st
    else
      match threshold_complete r with
      | none => (st, true)
      | some c =>
        match threshold_proficient r with
        | none => (st, true)
        | some p =>
          let st2 :=
            if py_contains "197" (rget r "Course" "") then
              (st.1, assocSet st.2 grade (⟨c, p⟩ : Threshold))
            else (assocSet st.1 grade (⟨c, p⟩ : Threshold), st.2)
          thresholds_loop rs st2

/-- The XP Modifications settings loop (`none` models a raised
`ValueError` from `int(value)`). -/
def xp_settings_loop : List Record → Int × Int → Option (Int × Int)
  | [], st => some st
  | r :: rs, (xp_per_mod, max_mods) =>
    let setting := rget r "Setting" ""
    let value := rget r "Value" ""
    if py_contains "per modification" (py_lower setting) then
      match py_int value with
      | none => none
      | some v => xp_settings_loop rs (v, max_mods)
    else if py_contains "maximum" (py_lower setting) then
      match py_int value with
      | none => none
      | some v => xp_settings_loop rs (xp_per_mod, v)
    else xp_settings_loop rs (xp_per_mod, max_mods)

/-- One band of the generated modifications table. -/
def xp_band (xp_per_mod max_mods : Int) (i : Nat) : XpBand :=
  let label :=
    if i = 0 then "Less than " ++ int_repr xp_per_mod ++ " XP"
    else if (i : Int) = max_mods then int_repr (max_mods * xp_per_mod) ++ " or more XP"
    else int_repr ((i : Int) * xp_per_mod) ++ "-" ++
      int_repr (((i : Int) + 1) * xp_per_mod - 1) ++ " XP"
  ⟨(i : Int) * xp_per_mod, (i : Int), label, max_mods⟩

/-- `for i in range(max_mods + 1)` generating the table. -/
def xp_modifications (xp_per_mod max_mods : Int) : List XpBand :=
  (List.range (max_mods + 1).toNat).map (xp_band xp_per_mod max_mods)

/-- The fixed fallback table. -/
def xp_default_modifications : List XpBand :=
  [⟨0, 0, "Less than 250 XP", 3⟩, ⟨250, 1, "250-499 XP", 3⟩,
   ⟨500, 2, "500-749 XP", 3⟩, ⟨750, 3, "750 or more XP", 3⟩]

def fetch_grading (env : Env) : Grading × List String :=
  let thrPair :=
    match env "Grade Thresholds" with
    | .error _ => (([], []), true)
    | .ok records => thresholds_loop records ([], [])
  let thrWarn := if thrPair.2 then ["Warning: Could not fetch grade thresholds"] else []
  let actPair : List XpActivity × List String :=
    match env "XP Activities" with
    | .error _ => ([], ["Warning: Could not fetch XP activities"])
    | .ok xp_records =>
      (xp_records.foldl (fun acc r =>
        let nm := rget r "Activity" ""
        if py_truthy nm then
          acc ++ [(⟨nm, rget r "XP Value" "", rget r "Details" ""⟩ : XpActivity)]
        else acc) [], [])
  let modPair : List XpBand × List String :=
    match env "XP Modifications" with
    | .error _ => (xp_default_modifications, ["Warning: Could not fetch XP modifications"])
    | .ok mod_records =>
      match xp_settings_loop mod_records (250, 3) with
      | none => (xp_default_modifications, ["Warning: Could not fetch XP modifications"])
      | some st => (xp_modifications st.1 st.2, [])
  (⟨thrPair.1.1, thrPair.1.2, modPair.1, actPair.1⟩,
   thrWarn ++ actPair.2 ++ modPair.2)

/-! ## `_fetch_learning_targets` -/
def is_essential_flag (s : String) : Bool :=
  (["true", "yes", "1", "x"] : List String).contains (py_lower s)

/-- `int("".join(filter(str.isdigit, lt_id)))`; `none` is the
`ValueError` that `except ValueError: pass` swallows. -/
def essential_num (lt_id : String) : Option Int :=
  py_int ⟨lt_id.data.filter is_ascii_digit⟩

def lt_target_of (r : Record) (lt_id : String) : LearningTarget :=
  let f_desc := py_or (py_or (rget r "F_Description" "") (rget r "F Description" ""))
    (rget r "Foundational Description" "")
  let f_obj_str := py_or (py_or (rget r "F_Objectives" "") (rget r "F Objectives" ""))
    (rget r "Foundational Objectives" "")
  let adv_desc := py_or (py_or (rget r "Adv_Description" "") (rget r "Adv Description" ""))
    (rget r "Advanced Description" "")
  let adv_obj_str := py_or (py_or (rget r "Adv_Objectives" "") (rget r "Adv Objectives" ""))
    (rget r "Advanced Objectives" "")
  let notes := rget r "Notes" ""
  { id := lt_id,
    ttype := rget r "Type" "Two-Part",
    title := rget r "Title" "",
    description := rget r "Description" "",
    f_description := if py_truthy f_desc then some f_desc else none,
    adv_description := if py_truthy adv_desc then some adv_desc else none,
    notes := if py_truthy notes then some notes else none,
    f_objectives := if py_truthy f_obj_str then some (parse_objectives_list f_obj_str) else none,
    adv_objectives := if py_truthy adv_obj_str then some (parse_objectives_list adv_obj_str) else none }

/-- One iteration of the Learning Targets loop over
`(essential, targets)`. -/
def lt_step (st : List Int × List LearningTarget) (r : Record) :
    List Int × List LearningTarget :=
  let lt_id := py_or (rget r "LT ID" "") (rget r "LT_ID" "")
  if ¬ py_truthy lt_id then st
  else
    let ess :=
      if is_essential_flag (rget r "Essential" "") then
        match essential_num lt_id with
        | some n => st.1 ++ [n]
        | none => st.1
      else st.1
    (ess, st.2 ++ [lt_target_of r lt_id])

def fetch_learning_targets (env : Env) : LtConfig × List String :=
  let fetched : (Nat × (List Int × List LearningTarget)) × List String :=
    match env "Learning Targets" with
    | .error _ => ((25, ([], [])), ["Warning: Could not fetch learning targets"])
    | .ok records => ((records.length, records.foldl lt_step ([], [])), [])
  let url :=
    match env "Course Info" with
    | .error _ => ""
    | .ok records =>
      let info := records.foldl
        (fun m r => assocSet m (rget r "Setting" "") (rget r "Value" "")) []
      py_or ((assocGet? info "Learning Targets URL").getD "")
        ((assocGet? info "Detailed List URL").getD "")
  ({ total := fetched.1.1, detailed_list_url := url,
     essential := fetched.1.2.1, targets := fetched.1.2.2 }, fetched.2)

/-! ## `_fetch_quiz_schedule` -/
def week_init (w : Int) : WeekEntry := ⟨w, "", [], [], "", "", [], [], "", []⟩

/-- `[x.strip() for x in s.split(",") if x.strip()]` guarded by
truthiness. -/
def split_commas (s : String) : List String :=
  if py_truthy s then ((py_split_char ',' s).map py_strip).filter py_truthy else []

def quiz_exam_type (session_lower : String) : Option String :=
  if session_lower = "midterm" then some "midterm"
  else if session_lower = "make-up midterm" then some "makeup_midterm"
  else if session_lower = "make-up" ∨ session_lower = "makeup" then some "makeup"
  else if session_lower = "final" then some "final"
  else none

def quiz_step (m : List (Int × WeekEntry)) (r : Record) : List (Int × WeekEntry) :=
  let week_str := rget r "Week" ""
  if ¬ py_truthy week_str then m
  else
    match py_int week_str with
    | none => m
    | some w =>
      let m := if assocHas m w then m else m ++ [(w, week_init w)]
      let session := py_strip (rget r "Session" "")
      let session_lower := py_lower session
      let date_str := rget r "Date" ""
      let lts := split_commas (py_or (rget r "Learning Targets" "") (rget r "LTs" ""))
      let new_lts := split_commas (py_or (py_or (rget r "New Lts" "") (rget r "New LTs" ""))
        (rget r "New" ""))
      let notes := rget r "Notes" ""
      let m :=
        if py_contains "tuesday" session_lower then
          assocUpdate m w (fun we =>
            { we with tuesday_date := date_str, tuesday_lts := lts,
                      tuesday_new_lts := new_lts, tuesday_notes := notes })
        else if py_contains "thursday" session_lower then
          assocUpdate m w (fun we =>
            { we with thursday_date := date_str, thursday_lts := lts,
                      thursday_new_lts := new_lts, thursday_notes := notes })
        else m
      match quiz_exam_type session_lower with
      | none => m
      | some et =>
        assocUpdate m w (fun we =>
          if (we.exam_sessions.map (fun e => e.date)).contains date_str then we
          else { we with exam_sessions := we.exam_sessions ++
              [(⟨date_str, et, session, lts, notes⟩ : ExamSession)] })

def fetch_quiz_schedule (env : Env) : List WeekEntry × List String :=
  match env "Quiz Schedule" with
  | .error _ => ([], ["Warning: Could not fetch quiz schedule"])
  | .ok records =>
    ((sort_by_key (fun kv => kv.1) (records.foldl quiz_step [])).map (fun kv => kv.2),
     [])

/-! ## `_fetch_la_sessions` (returns the dict value directly: its shape
depends on the data) -/
def la_location_names : List String :=
  ["la session location", "la sessions location", "la location"]

/-- The LA-session location looked up in Course Info (with its
warning when that fetch fails). -/
def la_location (env : Env) : String × List String :=
  match env "Course Info" with
  | .error _ => ("", ["Warning: Could not fetch LA Session Location from Course Info"])
  | .ok records =>
    match records.find? (fun r =>
      rhas r "Setting" &&
        la_location_names.contains (py_lower (py_strip (rget r "Setting" "")))) with
    | some r => (py_strip (rget r "Value" ""), [])
    | none => ("", [])

/-- The schedule rows of the LA Sessions tab that carry both a Days and
a Time value. -/
def la_schedule_of (records : List Record) : List LaEntry :=
  records.foldl (fun acc r =>
    let days := py_strip (rget r "Days" "")
    let time := py_or (py_strip (rget r "Time" "")) (py_strip (rget r "Times" ""))
    if py_truthy days ∧ py_truthy time then acc ++ [(⟨days, time⟩ : LaEntry)]
    else acc) []

def la_entry_py (e : LaEntry) : PyVal :=
  .pydict (.ofList [("days", .pystr e.days), ("time", .pystr e.time)])

def fetch_la_sessions (env : Env) : PyVal × List String :=
  let locPair := la_location env
  match env "LA Sessions" with
  | .error _ => (.pydict .nil, locPair.2 ++ ["Warning: Could not fetch LA Sessions"])
  | .ok records =>
    let schedule := la_schedule_of records
    if schedule = [] then (.pydict .nil, locPair.2)
    else
      (.pydict (.ofList [("location", .pystr locPair.1),
        ("schedule", .pylist (PyList.ofList (schedule.map la_entry_py)))]),
       locPair.2)

/-! ## `_get_office_hours_embed_url` -/
def get_office_hours_embed_url (env : Env) : String :=
  match env "Course Info" with
  | .error _ => ""
  | .ok records =>
    match records.find? (fun r =>
      rhas r "Setting" && (rget r "Setting" "" == "Office Hours Embed URL")) with
    | some r => rget r "Value" ""
    | none => ""

/-! ## Conversion of the fetched shapes to Python values (dict key
order is the construction order of the source) -/
def str_list_py (xs : List String) : PyVal :=
  .pylist (PyList.ofList (xs.map .pystr))

def opt_int_py : Option Int → PyVal
  | none => .pynone
  | some i => .pyint i

def section_detail_py (d : SectionDetail) : PyVal :=
  .pydict (.ofList [("number", .pystr d.number), ("days", .pystr d.days),
    ("time", .pystr d.time), ("location", .pystr d.location)])

def office_hour_py (o : OfficeHour) : PyVal :=
  .pydict (.ofList [("day", .pystr o.day), ("time", .pystr o.time),
    ("location", .pystr o.location), ("type", .pystr o.ohtype)])

def instructor_py (i : Instructor) : PyVal :=
  .pydict (.ofList ([("id", .pystr i.id), ("name", .pystr i.name),
      ("title", .pystr i.title), ("email", .pystr i.email),
      ("office", .pystr i.office)] ++
    (match i.pronouns with
     | some p => [("pronouns", .pystr p)]
     | none => []) ++
    [("sections", .pylist (PyList.ofList (i.sections.map section_detail_py))),
     ("office_hours", .pylist (PyList.ofList (i.office_hours.map office_hour_py)))]))

def section_entry_py (s : SectionEntry) : PyVal :=
  .pydict (.ofList [("number", .pystr s.number), ("time", .pystr s.time),
    ("location", .pystr s.location), ("instructor", .pystr s.instructor),
    ("instructor_id", .pystr s.instructor_id)])

def period_py (p : PeriodData) : PyVal :=
  .pydict (.ofList [("name", .pystr p.name), ("icon", .pystr p.icon),
    ("time_range", .pystr p.time_range),
    ("sections", .pylist (PyList.ofList (p.sections.map section_entry_py)))])

def tuesday_py (t : TuesdaySection) : PyVal :=
  .pydict (.ofList [("identifier", .pystr t.identifier), ("time", .pystr t.time),
    ("location", .pystr t.location)])

def midterm_py (m : Midterm) : PyVal :=
  .pydict (.ofList [("name", .pystr m.name), ("date", .pystr m.date),
    ("time", .pystr m.time), ("location", .pystr m.location),
    ("makeup_date", .pystr m.makeup_date), ("makeup_time", .pystr m.makeup_time),
    ("makeup_location", .pystr m.makeup_location)])

def makeup_session_py (m : MakeupSession) : PyVal :=
  .pydict (.ofList [("name", .pystr m.name), ("date", .pystr m.date),
    ("time", .pystr m.time), ("location", .pystr m.location),
    ("notes", .pystr m.notes)])

def final_py : FinalExam → PyVal
  | .initial =>
    .pydict (.ofList [("date",
      .pystr "To be announced (Check the Penn State Final Exam Schedule)")])
  | .fromRow date time location =>
    .pydict (.ofList [("date", .pystr date), ("time", .pystr time),
      ("location", .pystr location)])

def exams_py (e : ExamsResult) : PyVal :=
  .pydict (.ofList [
    ("midterms", .pylist (PyList.ofList (e.midterms.map midterm_py))),
    ("final", final_py e.final),
    ("midterm1", .pydict (.ofList [("display", .pystr e.midterm1_display)])),
    ("midterm2", .pydict (.ofList [("display", .pystr e.midterm2_display)])),
    ("makeup_quiz_sessions",
      .pylist (PyList.ofList (e.makeup_quiz_sessions.map makeup_session_py)))])

def date_entry_py (d : DateEntry) : PyVal :=
  .pydict (.ofList [("event", .pystr d.event), ("date", .pystr d.date)])

def important_dates_py (d : ImportantDates) : PyVal :=
  .pydict (.ofList [("all", .pylist (PyList.ofList (d.all.map date_entry_py))),
    ("regular_drop", .pystr d.regular_drop), ("late_drop", .pystr d.late_drop),
    ("finals_week", .pystr d.finals_week)])

def quiz_hour_py (q : QuizHour) : PyVal :=
  .pydict (.ofList [("time", .pystr q.time), ("location", .pystr q.location)])

def policies_py (hs : List QuizHour) : PyVal :=
  .pydict (.ofList [("thursday_quiz_hours",
    .pylist (PyList.ofList (hs.map quiz_hour_py)))])

def threshold_py (t : Threshold) : PyVal :=
  .pydict (.ofList [("complete", opt_int_py t.complete),
    ("proficient", opt_int_py t.proficient)])

def thresholds_py (xs : List (String × Threshold)) : PyVal :=
  .pydict (PyObj.ofList (xs.map (fun kv => (kv.1, threshold_py kv.2))))

def xp_band_py (b : XpBand) : PyVal :=
  .pydict (.ofList [("threshold", .pyint b.threshold), ("mods", .pyint b.mods),
    ("label", .pystr b.label), ("max_mods", .pyint b.max_mods)])

def xp_activity_py (a : XpActivity) : PyVal :=
  .pydict (.ofList [("name", .pystr a.name), ("value", .pystr a.value),
    ("details", .pystr a.details)])

def grading_py (g : Grading) : PyVal :=
  .pydict (.ofList [("thresholds", thresholds_py g.thresholds),
    ("math197_thresholds", thresholds_py g.math197_thresholds),
    ("xp", .pydict (.ofList [
      ("modifications", .pylist (PyList.ofList (g.modifications.map xp_band_py))),
      ("activities", .pylist (PyList.ofList (g.activities.map xp_activity_py)))]))])

def learning_target_py (t : LearningTarget) : PyVal :=
  .pydict (.ofList ([("id", .pystr t.id), ("type", .pystr t.ttype),
      ("title", .pystr t.title), ("description", .pystr t.description)] ++
    (match t.f_description with
     | some s => [("f_description", .pystr s)]
     | none => []) ++
    (match t.adv_description with
     | some s => [("adv_description", .pystr s)]
     | none => []) ++
    (match t.notes with
     | some s => [("notes", .pystr s)]
     | none => []) ++
    (match t.f_objectives with
     | some xs => [("f_objectives", str_list_py xs)]
     | none => []) ++
    (match t.adv_objectives with
     | some xs => [("adv_objectives", str_list_py xs)]
     | none => [])))

def lt_config_py (c : LtConfig) : PyVal :=
  .pydict (.ofList [("total", .pyint (c.total : Int)),
    ("detailed_list_url", .pystr c.detailed_list_url),
    ("essential", .pylist (PyList.ofList (c.essential.map .pyint))),
    ("targets", .pylist (PyList.ofList (c.targets.map learning_target_py)))])

def exam_session_py (e : ExamSession) : PyVal :=
  .pydict (.ofList [("date", .pystr e.date), ("exam_type", .pystr e.exam_type),
    ("session_type", .pystr e.session_type),
    ("learning_targets", str_list_py e.learning_targets),
    ("notes", .pystr e.notes)])

def week_py (w : WeekEntry) : PyVal :=
  .pydict (.ofList [("week", .pyint w.week),
    ("tuesday_date", .pystr w.tuesday_date),
    ("tuesday_lts", str_list_py w.tuesday_lts),
    ("tuesday_new_lts", str_list_py w.tuesday_new_lts),
    ("tuesday_notes", .pystr w.tuesday_notes),
    ("thursday_date", .pystr w.thursday_date),
    ("thursday_lts", str_list_py w.thursday_lts),
    ("thursday_new_lts", str_list_py w.thursday_new_lts),
    ("thursday_notes", .pystr w.thursday_notes),
    ("exam_sessions", .pylist (PyList.ofList (w.exam_sessions.map exam_session_py)))])

/-! ## `fetch_course_config` -/
def fetch_course_config (env : Env) (course_code term : String) :
    PyVal × List String :=
  let ci := fetch_course_info env course_code term
  let ins := fetch_instructors env
  let mwf := fetch_lecture_sections env
  let tue := fetch_tuesday_sections env
  let ex := fetch_exams env
  let imd := fetch_important_dates env
  let pol := fetch_policies env
  let gr := fetch_grading env
  let lt := fetch_learning_targets env
  let qs := fetch_quiz_schedule env
  let la := fetch_la_sessions env
  let office_hours_url := get_office_hours_embed_url env
  (.pydict (.ofList [
    ("course", ci.1),
    ("instructors", .pylist (PyList.ofList (ins.1.map instructor_py))),
    ("mwf_sections", .pylist (PyList.ofList (mwf.1.map period_py))),
    ("tuesday_sections", .pylist (PyList.ofList (tue.1.map tuesday_py))),
    ("exams", exams_py ex.1),
    ("important_dates", important_dates_py imd.1),
    ("policies", policies_py pol.1),
    ("grading", grading_py gr.1),
    ("learning_targets", lt_config_py lt.1),
    ("quiz_schedule", .pylist (PyList.ofList (qs.1.map week_py))),
    ("la_sessions", la.1),
    ("office_hours_embed_url",
      .pystr (if py_truthy office_hours_url then office_hours_url else ""))]),
   ci.2 ++ ins.2 ++ mwf.2 ++ tue.2 ++ ex.2 ++ imd.2 ++ pol.2 ++ gr.2 ++
     lt.2 ++ qs.2 ++ la.2)

/-! ## Claim-side definitions and inspection helpers -/
/-- Top-level keys of a configuration dict. -/
def config_keys (v : PyVal) : List String :=
  match v with
  | .pydict kvs => kvs.keys
  | _ => []

/-- Top-level lookup in a configuration dict. -/
def config_get (v : PyVal) (k : String) : Option PyVal :=
  match v with
  | .pydict kvs => kvs.get? k
  | _ => none

/-- A spreadsheet on which every worksheet fetch raises. -/
def env_fail : Env := fun _ => .error ()

/-! ## C3: time-period bucketing -/
/-- Claim-side (from the spec's words): the start hour of a time string
— only the text before the range separator, AM/PM applied — or `none`
when unparseable or empty. -/
def claim_start_hour (time_str : String) : Option Int :=
  if ¬ py_truthy time_str then none
  else
    let start_time := py_strip ((py_split_char '-' time_str).headD "")
    match py_int (py_strip ((py_split_char ':' start_time).headD "")) with
    | none => none
    | some h =>
      some (if py_contains "pm" (py_lower start_time) ∧ h ≠ 12 then h + 12
        else if py_contains "am" (py_lower start_time) ∧ h = 12 then 0
        else h)

/-- Claim-side bucketing: Morning below 10, Late Morning 10–11, Afternoon
12–16, Evening from 17; unparseable or empty input is Morning. -/
def claim_time_period (time_str : String) : String :=
  match claim_start_hour time_str with
  | none => "Morning"
  | some hour =>
    if hour < 10 then "Morning"
    else if hour < 12 then "Late Morning"
    else if hour < 17 then "Afternoon"
    else "Evening"

/-! ## C8: essential-target extraction -/
/-- What one Learning Targets row adds to the `essential` list. -/
def lt_contribution (r : Record) : Option Int :=
  let lt_id := py_or (rget r "LT ID" "") (rget r "LT_ID" "")
  if py_truthy lt_id then
    if is_essential_flag (rget r "Essential" "") then essential_num lt_id
    else none
  else none

/-- Claim-side (from the spec's words): the numeric suffix of an
identifier — its trailing run of digits. -/
def claim_numeric_suffix (s : String) : Option Int :=
  py_int ⟨(s.data.reverse.takeWhile is_ascii_digit).reverse⟩

/-! ## Round-trip proof: characters and whitespace -/
theorem char_toNat_ofNat (n : Nat) (h : n.isValidChar) : (Char.ofNat n).toNat = n := by
  unfold Char.ofNat
  rw [dif_pos h]
  rfl

theorem char_valid (c : Char) :
    c.toNat < 0xd800 ∨ (0xe000 ≤ c.toNat ∧ c.toNat < 0x110000) := by
  have h := c.valid
  unfold UInt32.isValidChar Nat.isValidChar at h
  exact h

theorem char_eq_toNat {c d : Char} (h : c = d) : c.toNat = d.toNat := by rw [h]

theorem digit_char_toNat {m : Nat} (h : m < 10) : (digit_char m).toNat = 48 + m := by
  apply char_toNat_ofNat
  left
  omega

theorem is_ascii_digit_digit_char {m : Nat} (h : m < 10) :
    is_ascii_digit (digit_char m) = true := by
  simp [is_ascii_digit, digit_char_toNat h]
  omega

theorem digit_val_digit_char {m : Nat} (h : m < 10) : digit_val (digit_char m) = m := by
  simp [digit_val, digit_char_toNat h]

theorem char_ne_of_toNat_ne {c d : Char} (h : c.toNat ≠ d.toNat) : c ≠ d :=
  fun he => h (by rw [he])

/-- Each fact a digit character needs at a parser branch point. -/
theorem digit_char_facts {c : Char} (h : is_ascii_digit c = true) :
    is_json_ws c = false ∧ c ≠ ']' ∧ c ≠ '}' ∧ c ≠ '"' ∧ c ≠ '[' ∧ c ≠ '{' ∧
      c ≠ 't' ∧ c ≠ 'f' ∧ c ≠ 'n' ∧ c ≠ '-' ∧ c ≠ '.' ∧ c ≠ 'e' ∧ c ≠ 'E' := by
  simp only [is_ascii_digit, Bool.and_eq_true, decide_eq_true_eq] at h
  obtain ⟨ha, hb⟩ := h
  have hws : is_json_ws c = false := by
    simp only [is_json_ws, Bool.or_eq_false_iff, decide_eq_false_iff_not]
    refine ⟨⟨⟨?_, ?_⟩, ?_⟩, ?_⟩ <;>
      exact char_ne_of_toNat_ne (by simp; omega)
  refine ⟨hws, ?_, ?_, ?_, ?_, ?_, ?_, ?_, ?_, ?_, ?_, ?_, ?_⟩ <;>
    exact char_ne_of_toNat_ne (by simp; omega)

theorem skip_ws_cons {c : Char} (h : is_json_ws c = false) (cs : List Char) :
    skip_ws (c :: cs) = c :: cs := by
  simp [skip_ws, List.dropWhile_cons, h]

theorem skip_ws_all_ws {pre : List Char} (h : ∀ c ∈ pre, is_json_ws c = true)
    (cs : List Char) : skip_ws (pre ++ cs) = skip_ws cs := by
  induction pre with
  | nil => rfl
  | cons p ps ih =>
    have hp := h p (by simp)
    simp only [List.cons_append, skip_ws, List.dropWhile_cons, hp, if_pos]
    exact ih (fun c hc => h c (by simp [hc]))

theorem indent_all_ws (d : Nat) : ∀ c ∈ indent_at d, is_json_ws c = true := by
  intro c hc
  simp only [indent_at, List.mem_replicate] at hc
  simp [hc.2, is_json_ws]

theorem skip_ws_newline_indent (d : Nat) (cs : List Char) :
    skip_ws ('\n' :: (indent_at d ++ cs)) = skip_ws cs := by
  have : is_json_ws '\n' = true := by simp [is_json_ws]
  simp only [skip_ws, List.dropWhile_cons, this, if_pos]
  exact skip_ws_all_ws (indent_all_ws d) cs

theorem nat_digits_spec_zero : nat_digits_spec 0 = [] := by
  rw [nat_digits_spec]
  simp

theorem nat_digits_spec_succ {n : Nat} (h : n ≠ 0) :
    nat_digits_spec n = nat_digits_spec (n / 10) ++ [digit_char (n % 10)] := by
  conv => left; rw [nat_digits_spec]
  rw [dif_neg h]

theorem nat_digits_go_eq : ∀ fuel n acc, n ≤ fuel →
    nat_digits_go fuel n acc = nat_digits_spec n ++ acc := by
  intro fuel
  induction fuel with
  | zero =>
    intro n acc h
    have hz : n = 0 := by omega
    subst hz
    rw [nat_digits_spec_zero]
    rfl
  | succ fuel ih =>
    intro n acc h
    match n with
    | 0 => rw [nat_digits_spec_zero]; rfl
    | m + 1 =>
      have hz : m + 1 ≠ 0 := by omega
      have hlt : (m + 1) / 10 ≤ fuel := by
        have := Nat.div_lt_self (show 0 < m + 1 by omega) (show 1 < 10 by omega)
        omega
      have hstep : nat_digits_go (fuel + 1) (m + 1) acc =
          nat_digits_go fuel ((m + 1) / 10) (digit_char ((m + 1) % 10) :: acc) := rfl
      rw [hstep, ih _ _ hlt, nat_digits_spec_succ hz]
      simp

theorem nat_digits_eq_spec {n : Nat} (h : n ≠ 0) : nat_digits n = nat_digits_spec n := by
  rw [nat_digits, if_neg h, nat_digits_go_eq n n [] (le_refl n)]
  simp

theorem nat_digits_spec_all_digits : ∀ n, ∀ c ∈ nat_digits_spec n, is_ascii_digit c = true := by
  intro n
  induction n using Nat.strong_induction_on with
  | _ n ih =>
    intro c hc
    by_cases hz : n = 0
    · subst hz; rw [nat_digits_spec_zero] at hc; simp at hc
    · rw [nat_digits_spec_succ hz] at hc
      rcases List.mem_append.mp hc with h | h
      · exact ih (n / 10) (Nat.div_lt_self (Nat.pos_of_ne_zero hz) (by omega)) c h
      · simp at h
        subst h
        exact is_ascii_digit_digit_char (Nat.mod_lt _ (by omega))

theorem nat_digits_spec_ne_nil {n : Nat} (h : n ≠ 0) : nat_digits_spec n ≠ [] := by
  rw [nat_digits_spec_succ h]
  simp

theorem parse_digits_go_spec : ∀ n, ∀ acc tail,
    parse_digits_go (nat_digits_spec n ++ tail) acc =
      parse_digits_go tail (acc * 10 ^ (nat_digits_spec n).length + n) := by
  intro n
  induction n using Nat.strong_induction_on with
  | _ n ih =>
    intro acc tail
    by_cases hz : n = 0
    · subst hz
      rw [nat_digits_spec_zero]
      simp
    · rw [nat_digits_spec_succ hz]
      have hmod : n % 10 < 10 := Nat.mod_lt _ (by omega)
      rw [List.append_assoc, ih (n / 10) (Nat.div_lt_self (Nat.pos_of_ne_zero hz) (by omega))]
      rw [show ([digit_char (n % 10)] ++ tail) = digit_char (n % 10) :: tail from rfl]
      rw [show parse_digits_go (digit_char (n % 10) :: tail)
            (acc * 10 ^ (nat_digits_spec (n / 10)).length + n / 10) =
          parse_digits_go tail
            ((acc * 10 ^ (nat_digits_spec (n / 10)).length + n / 10) * 10 +
              digit_val (digit_char (n % 10))) by
        rw [parse_digits_go]
        simp [is_ascii_digit_digit_char hmod]]
      rw [digit_val_digit_char hmod]
      congr 1
      have hdm := Nat.div_add_mod n 10
      simp [List.length_append]
      ring_nf
      omega

theorem parse_digits_go_stop {tail : List Char}
    (h : ∀ c cs, tail = c :: cs → is_ascii_digit c = false) (acc : Nat) :
    parse_digits_go tail acc = (acc, tail) := by
  cases tail with
  | nil => rfl
  | cons c cs =>
    rw [parse_digits_go]
    simp [h c cs rfl]

theorem finish_num_stop {rest : List Char} (h : num_stop rest) (neg : Bool) (n : Nat) :
    finish_num neg n rest = some (.pyint (if neg then -(n : Int) else (n : Int)), rest) := by
  cases rest with
  | nil => rfl
  | cons c cs =>
    obtain ⟨-, h1, h2, h3⟩ := h
    have hfc : is_float_cont (c :: cs) = false := by
      simp [is_float_cont, h1, h2, h3]
    rw [finish_num, hfc]
    simp

theorem parse_digits_nat {n : Nat} {tail : List Char} (h : num_stop tail) :
    parse_digits_go (nat_digits n ++ tail) 0 = (n, tail) := by
  have hstop : parse_digits_go tail n = (n, tail) := by
    apply parse_digits_go_stop
    intro c cs hc
    subst hc
    exact h.1
  by_cases hz : n = 0
  · subst hz
    have h0 : nat_digits 0 = ['0'] := rfl
    rw [h0, show (['0'] ++ tail) = '0' :: tail from rfl, parse_digits_go]
    have hd : is_ascii_digit '0' = true := by decide
    simp only [hd, if_pos]
    have hv : (0 : Nat) * 10 + digit_val '0' = 0 := by decide
    rw [hv]
    exact hstop
  · rw [nat_digits_eq_spec hz, parse_digits_go_spec]
    simpa using hstop

theorem parse_number_rt (i : Int) {rest : List Char} (h : num_stop rest) :
    parse_number ((int_repr i).data ++ rest) = some (.pyint i, rest) := by
  by_cases hneg : i < 0
  · have habs : i.natAbs ≠ 0 := by omega
    rw [int_repr, if_pos hneg]
    rw [show (String.mk ('-' :: nat_digits i.natAbs)).data = '-' :: nat_digits i.natAbs from rfl]
    rw [show (('-' :: nat_digits i.natAbs) ++ rest) = '-' :: (nat_digits i.natAbs ++ rest)
      from rfl]
    rw [parse_number.eq_def]
    simp only [reduceIte]
    rw [nat_digits_eq_spec habs]
    obtain ⟨c, cs, hcc⟩ : ∃ c cs, nat_digits_spec i.natAbs = c :: cs := by
      cases hh : nat_digits_spec i.natAbs with
      | nil => exact absurd hh (nat_digits_spec_ne_nil habs)
      | cons c cs => exact ⟨c, cs, rfl⟩
    have hcdig : is_ascii_digit c = true :=
      nat_digits_spec_all_digits i.natAbs c (by rw [hcc]; simp)
    rw [hcc]
    simp only [List.cons_append, hcdig, if_pos]
    rw [← List.cons_append, ← hcc, ← nat_digits_eq_spec habs, parse_digits_nat h]
    rw [finish_num_stop h]
    have habs2 : ((i.natAbs : Int)) = -i :=
      Int.ofNat_natAbs_of_nonpos (by omega)
    simp [habs2]
  · have hnn : i.toNat = i := by omega
    rw [int_repr, if_neg hneg]
    rw [show (String.mk (nat_digits i.toNat)).data = nat_digits i.toNat from rfl]
    obtain ⟨c, cs, hcc⟩ : ∃ c cs, nat_digits i.toNat = c :: cs := by
      by_cases hz : i.toNat = 0
      · rw [hz]; exact ⟨'0', [], rfl⟩
      · cases hh : nat_digits i.toNat with
        | nil =>
          rw [nat_digits_eq_spec hz] at hh
          exact absurd hh (nat_digits_spec_ne_nil hz)
        | cons c cs => exact ⟨c, cs, rfl⟩
    have hcdig : is_ascii_digit c = true := by
      by_cases hz : i.toNat = 0
      · rw [hz] at hcc
        have hc0 : c = '0' := by
          have := congrArg List.head? hcc
          simp only [nat_digits, if_pos rfl, List.head?] at this
          exact (Option.some_inj.mp this).symm
        rw [hc0]
        decide
      · rw [nat_digits_eq_spec hz] at hcc
        exact nat_digits_spec_all_digits _ c (by rw [hcc]; simp)
    have hcneg : c ≠ '-' := (digit_char_facts hcdig).2.2.2.2.2.2.2.2.2.1
    rw [hcc]
    simp only [List.cons_append]
    rw [parse_number.eq_def]
    simp only [if_neg hcneg, hcdig, if_pos]
    rw [← List.cons_append, ← hcc, parse_digits_nat h]
    rw [finish_num_stop h]
    simp [hnn]

/-! ## Round-trip proof: strings -/
theorem hex_val_hex_digit_char : ∀ m, m < 16 → hex_val (hex_digit_char m) = some m := by
  decide

theorem hex4_u_escape {n : Nat} (h : n < 0x10000) :
    hex4 (hex_digit_char (n / 4096 % 16)) (hex_digit_char (n / 256 % 16))
      (hex_digit_char (n / 16 % 16)) (hex_digit_char (n % 16)) = some n := by
  rw [hex4, hex_val_hex_digit_char _ (Nat.mod_lt _ (by omega)),
    hex_val_hex_digit_char _ (Nat.mod_lt _ (by omega)),
    hex_val_hex_digit_char _ (Nat.mod_lt _ (by omega)),
    hex_val_hex_digit_char _ (Nat.mod_lt _ (by omega))]
  show some (n / 4096 % 16 * 4096 + n / 256 % 16 * 256 + n / 16 % 16 * 16 + n % 16) = some n
  congr 1
  omega

theorem parse_u_escape_bmp {n : Nat} (h9 : n < 0x10000)
    (hsur : ¬(0xd800 ≤ n ∧ n < 0xe000)) (tail : List Char) :
    parse_u_escape (hex_digit_char (n / 4096 % 16) :: hex_digit_char (n / 256 % 16) ::
      hex_digit_char (n / 16 % 16) :: hex_digit_char (n % 16) :: tail) =
      some (Char.ofNat n, tail) := by
  rw [parse_u_escape]
  rw [hex4_u_escape h9]
  show parse_u_after n tail = some (Char.ofNat n, tail)
  rw [parse_u_after.eq_def]
  rw [if_neg (by omega : ¬(0xd800 ≤ n ∧ n < 0xdc00))]
  rw [if_neg (by omega : ¬(0xdc00 ≤ n ∧ n < 0xe000))]

theorem parse_u_escape_pair {n : Nat} (hlo : 0x10000 ≤ n) (hhi : n < 0x110000)
    (tail : List Char) :
    parse_u_escape (
      hex_digit_char ((0xd800 + (n - 0x10000) / 0x400) / 4096 % 16) ::
      hex_digit_char ((0xd800 + (n - 0x10000) / 0x400) / 256 % 16) ::
      hex_digit_char ((0xd800 + (n - 0x10000) / 0x400) / 16 % 16) ::
      hex_digit_char ((0xd800 + (n - 0x10000) / 0x400) % 16) ::
      '\\' :: 'u' ::
      hex_digit_char ((0xdc00 + (n - 0x10000) % 0x400) / 4096 % 16) ::
      hex_digit_char ((0xdc00 + (n - 0x10000) % 0x400) / 256 % 16) ::
      hex_digit_char ((0xdc00 + (n - 0x10000) % 0x400) / 16 % 16) ::
      hex_digit_char ((0xdc00 + (n - 0x10000) % 0x400) % 16) :: tail) =
      some (Char.ofNat n, tail) := by
  have hq : (n - 0x10000) / 0x400 < 0x400 := by omega
  rw [parse_u_escape]
  rw [hex4_u_escape (show 0xd800 + (n - 0x10000) / 0x400 < 0x10000 by omega)]
  show parse_u_after (0xd800 + (n - 0x10000) / 0x400)
      ('\\' :: 'u' ::
        hex_digit_char ((0xdc00 + (n - 0x10000) % 0x400) / 4096 % 16) ::
        hex_digit_char ((0xdc00 + (n - 0x10000) % 0x400) / 256 % 16) ::
        hex_digit_char ((0xdc00 + (n - 0x10000) % 0x400) / 16 % 16) ::
        hex_digit_char ((0xdc00 + (n - 0x10000) % 0x400) % 16) :: tail) =
      some (Char.ofNat n, tail)
  rw [parse_u_after.eq_def]
  rw [if_pos (by omega :
    0xd800 ≤ 0xd800 + (n - 0x10000) / 0x400 ∧ 0xd800 + (n - 0x10000) / 0x400 < 0xdc00)]
  simp only [Char.reduceEq, and_self, reduceIte,
    hex4_u_escape (show 0xdc00 + (n - 0x10000) % 0x400 < 0x10000 by omega)]
  rw [if_pos (by omega :
    0xdc00 ≤ 0xdc00 + (n - 0x10000) % 0x400 ∧ 0xdc00 + (n - 0x10000) % 0x400 < 0xe000)]
  rw [show 0x10000 + (0xd800 + (n - 0x10000) / 0x400 - 0xd800) * 0x400 +
        (0xdc00 + (n - 0x10000) % 0x400 - 0xdc00) = n by
    have := Nat.div_add_mod (n - 0x10000) 0x400
    omega]

/-- The parser step on a `\u` escape, with the digits left abstract. -/
theorem parse_string_go_u (fuel : Nat) (cs2 acc : List Char) :
    parse_string_go (fuel + 1) ('\\' :: 'u' :: cs2) acc =
      match parse_u_escape cs2 with
      | none => none
      | some (ch, cs3) => parse_string_go fuel cs3 (ch :: acc) := by
  simp [parse_string_go]

/-- Consuming one encoded character is the same as pushing it on the
accumulator: the inductive heart of the string round trip. -/
theorem parse_one_escape (fuel : Nat) (c : Char) (tail acc : List Char) :
    parse_string_go (fuel + 1) (escape_char c ++ tail) acc =
      parse_string_go fuel tail (c :: acc) := by
  by_cases h1 : c = '"'
  · subst h1
    simp [escape_char, parse_string_go]
  by_cases h2 : c = '\\'
  · subst h2
    simp [escape_char, parse_string_go]
  by_cases h3 : c = '\n'
  · subst h3
    simp [escape_char, parse_string_go]
  by_cases h4 : c = '\t'
  · subst h4
    simp [escape_char, parse_string_go]
  by_cases h5 : c = '\x0d'
  · subst h5
    simp [escape_char, parse_string_go]
  by_cases h6 : c = '\x08'
  · subst h6
    simp [escape_char, parse_string_go]
  by_cases h7 : c = '\x0c'
  · subst h7
    simp [escape_char, parse_string_go]
  by_cases h8 : 0x20 ≤ c.toNat ∧ c.toNat < 0x7f
  · -- raw printable ASCII character
    have he : escape_char c = [c] := by
      rw [escape_char, if_neg h1, if_neg h2, if_neg h3, if_neg h4, if_neg h5, if_neg h6,
        if_neg h7, if_pos h8]
    have hlt : ¬c.toNat < 0x20 := by omega
    rw [he, List.cons_append, List.nil_append]
    simp [parse_string_go, h1, h2, hlt]
  by_cases h9 : c.toNat < 0x10000
  · -- basic-plane character, one \uXXXX escape
    have he : escape_char c = u_escape c.toNat := by
      rw [escape_char, if_neg h1, if_neg h2, if_neg h3, if_neg h4, if_neg h5, if_neg h6,
        if_neg h7, if_neg h8, if_pos h9]
    have hval := char_valid c
    rw [he]
    rw [show u_escape c.toNat ++ tail =
        '\\' :: 'u' :: (hex_digit_char (c.toNat / 4096 % 16) ::
          hex_digit_char (c.toNat / 256 % 16) :: hex_digit_char (c.toNat / 16 % 16) ::
          hex_digit_char (c.toNat % 16) :: tail) from rfl]
    rw [parse_string_go_u]
    rw [parse_u_escape_bmp h9 (by omega) tail]
    show parse_string_go fuel tail (Char.ofNat c.toNat :: acc) =
      parse_string_go fuel tail (c :: acc)
    rw [Char.ofNat_toNat]
  · -- astral character, surrogate-pair escape
    have he : escape_char c =
        u_escape (0xd800 + (c.toNat - 0x10000) / 0x400) ++
          u_escape (0xdc00 + (c.toNat - 0x10000) % 0x400) := by
      rw [escape_char, if_neg h1, if_neg h2, if_neg h3, if_neg h4, if_neg h5, if_neg h6,
        if_neg h7, if_neg h8, if_neg h9]
    have hval := char_valid c
    rw [he]
    rw [show (u_escape (0xd800 + (c.toNat - 0x10000) / 0x400) ++
          u_escape (0xdc00 + (c.toNat - 0x10000) % 0x400)) ++ tail =
        '\\' :: 'u' :: (
          hex_digit_char ((0xd800 + (c.toNat - 0x10000) / 0x400) / 4096 % 16) ::
          hex_digit_char ((0xd800 + (c.toNat - 0x10000) / 0x400) / 256 % 16) ::
          hex_digit_char ((0xd800 + (c.toNat - 0x10000) / 0x400) / 16 % 16) ::
          hex_digit_char ((0xd800 + (c.toNat - 0x10000) / 0x400) % 16) ::
          '\\' :: 'u' ::
          hex_digit_char ((0xdc00 + (c.toNat - 0x10000) % 0x400) / 4096 % 16) ::
          hex_digit_char ((0xdc00 + (c.toNat - 0x10000) % 0x400) / 256 % 16) ::
          hex_digit_char ((0xdc00 + (c.toNat - 0x10000) % 0x400) / 16 % 16) ::
          hex_digit_char ((0xdc00 + (c.toNat - 0x10000) % 0x400) % 16) :: tail) from rfl]
    rw [parse_string_go_u]
    rw [parse_u_escape_pair (by omega) (by omega) tail]
    show parse_string_go fuel tail (Char.ofNat c.toNat :: acc) =
      parse_string_go fuel tail (c :: acc)
    rw [Char.ofNat_toNat]

/-- The whole encoded string body round-trips. -/
theorem parse_string_rt (l : List Char) : ∀ fuel tail acc, l.length < fuel →
    parse_string_go fuel (l.flatMap escape_char ++ ('"' :: tail)) acc =
      some (acc.reverse ++ l, tail) := by
  induction l with
  | nil =>
    intro fuel tail acc hf
    obtain ⟨f, rfl⟩ : ∃ f, fuel = f + 1 := ⟨fuel - 1, by omega⟩
    simp [parse_string_go]
  | cons c l ih =>
    intro fuel tail acc hf
    obtain ⟨f, rfl⟩ : ∃ f, fuel = f + 1 := ⟨fuel - 1, by omega⟩
    rw [List.flatMap_cons, List.append_assoc, parse_one_escape,
      ih f tail (c :: acc) (by simpa using Nat.lt_of_succ_lt_succ hf)]
    simp

theorem escape_char_length_pos (c : Char) : 1 ≤ (escape_char c).length := by
  rw [escape_char]
  split_ifs <;> simp [u_escape]

theorem flatMap_escape_length (l : List Char) :
    l.length ≤ (l.flatMap escape_char).length := by
  induction l with
  | nil => simp
  | cons c l ih =>
    rw [List.flatMap_cons, List.length_append, List.length_cons]
    have := escape_char_length_pos c
    omega

theorem pmeasure_pos (v : PyVal) : 1 ≤ pmeasure v := by
  cases v <;> simp only [pmeasure] <;> omega

/-- Facts a leading `-` or digit needs at the parser dispatch. -/
theorem num_head_facts {c : Char} (h : c = '-' ∨ is_ascii_digit c = true) :
    is_json_ws c = false ∧ c ≠ '"' ∧ c ≠ '[' ∧ c ≠ '{' ∧
      c ≠ 't' ∧ c ≠ 'f' ∧ c ≠ 'n' ∧ c ≠ ']' ∧ c ≠ '}' := by
  rcases h with h | h
  · subst h
    refine ⟨by simp [is_json_ws], ?_, ?_, ?_, ?_, ?_, ?_, ?_, ?_⟩ <;> simp
  · have hf := digit_char_facts h
    exact ⟨hf.1, hf.2.2.2.1, hf.2.2.2.2.1, hf.2.2.2.2.2.1, hf.2.2.2.2.2.2.1,
      hf.2.2.2.2.2.2.2.1, hf.2.2.2.2.2.2.2.2.1, hf.2.1, hf.2.2.1⟩

theorem int_repr_shape (i : Int) :
    ∃ c cs0, (int_repr i).data = c :: cs0 ∧ (c = '-' ∨ is_ascii_digit c = true) := by
  by_cases hneg : i < 0
  · rw [int_repr, if_pos hneg]
    exact ⟨'-', nat_digits i.natAbs, rfl, Or.inl rfl⟩
  · rw [int_repr, if_neg hneg]
    by_cases hz : i.toNat = 0
    · rw [hz]
      exact ⟨'0', [], rfl, Or.inr (by decide)⟩
    · rw [nat_digits_eq_spec hz]
      cases hh : nat_digits_spec i.toNat with
      | nil => exact absurd hh (nat_digits_spec_ne_nil hz)
      | cons c cs =>
        refine ⟨c, cs, by simp, Or.inr ?_⟩
        exact nat_digits_spec_all_digits _ c (by rw [hh]; simp)

/-- The encoding of a value starts with a character the surrounding
grammar never confuses with whitespace or a closing bracket. -/
theorem encode_head (d : Nat) (v : PyVal) :
    ∃ c cs, encode d v = c :: cs ∧ is_json_ws c = false ∧ c ≠ ']' ∧ c ≠ '}' := by
  cases v with
  | pynone =>
    exact ⟨'n', ['u', 'l', 'l'], by rw [encode], by simp [is_json_ws], by simp, by simp⟩
  | pybool b =>
    cases b
    · exact ⟨'f', ['a', 'l', 's', 'e'], by rw [encode], by simp [is_json_ws], by simp, by simp⟩
    · exact ⟨'t', ['r', 'u', 'e'], by rw [encode], by simp [is_json_ws], by simp, by simp⟩
  | pyint i =>
    obtain ⟨c, cs0, hcc, hc⟩ := int_repr_shape i
    have hf := num_head_facts hc
    exact ⟨c, cs0, by rw [encode]; exact hcc, hf.1, hf.2.2.2.2.2.2.2.1, hf.2.2.2.2.2.2.2.2⟩
  | pystr s =>
    exact ⟨'"', s.data.flatMap escape_char ++ ['"'], by rw [encode]; rfl,
      by simp [is_json_ws], by simp, by simp⟩
  | pylist xs =>
    cases xs with
    | nil => exact ⟨'[', [']'], by rw [encode], by simp [is_json_ws], by simp, by simp⟩
    | cons v vs =>
      exact ⟨'[', '\n' :: (indent_at (d + 1) ++ encode_items d v vs), by rw [encode],
        by simp [is_json_ws], by simp, by simp⟩
  | pydict kvs =>
    cases kvs with
    | nil => exact ⟨'{', ['}'], by rw [encode], by simp [is_json_ws], by simp, by simp⟩
    | cons k v kvs =>
      exact ⟨'{', '\n' :: (indent_at (d + 1) ++ encode_members d k v kvs), by rw [encode],
        by simp [is_json_ws], by simp, by simp⟩

theorem skip_ws_encode (d : Nat) (v : PyVal) (rest : List Char) :
    skip_ws (encode d v ++ rest) = encode d v ++ rest := by
  obtain ⟨c, cs, hcc, hws, -, -⟩ := encode_head d v
  rw [hcc, List.cons_append, skip_ws_cons hws]

theorem parse_value_ws (fuel : Nat) (pre cs : List Char)
    (h : ∀ c ∈ pre, is_json_ws c = true) :
    parse_value fuel (pre ++ cs) = parse_value fuel cs := by
  cases fuel with
  | zero => rfl
  | succ f =>
    simp only [parse_value, skip_ws_all_ws h]

theorem encode_items_head (d : Nat) (v : PyVal) (vs : PyList) :
    ∃ c cs, encode_items d v vs = c :: cs ∧ is_json_ws c = false ∧ c ≠ ']' ∧ c ≠ '}' := by
  obtain ⟨c, cs, hcc, hws, hr, hb⟩ := encode_head (d + 1) v
  cases vs with
  | nil =>
    refine ⟨c, cs ++ ('\n' :: (indent_at d ++ [']'])), ?_, hws, hr, hb⟩
    rw [encode_items, hcc, List.cons_append]
  | cons w ws =>
    refine ⟨c, cs ++ (',' :: '\n' :: (indent_at (d + 1) ++ encode_items d w ws)), ?_,
      hws, hr, hb⟩
    rw [encode_items, hcc, List.cons_append]

theorem string_key_eta (k : String) : String.mk k.data = k := rfl

theorem num_stop_cons {c : Char} (h : is_ascii_digit c = false) (h1 : c ≠ '.')
    (h2 : c ≠ 'e') (h3 : c ≠ 'E') (tail : List Char) : num_stop (c :: tail) :=
  ⟨h, h1, h2, h3⟩

/-- The main round trip: the parser recovers every encoded value, item
sequence and member sequence, at any sufficient recursion budget. -/
theorem parse_rt : ∀ fuel : Nat,
    (∀ (v : PyVal) (d : Nat) (rest : List Char), pmeasure v ≤ fuel → num_stop rest →
      parse_value fuel (encode d v ++ rest) = some (v, rest)) ∧
    (∀ (pre : List Char) (v : PyVal) (vs : PyList) (d : Nat) (rest : List Char),
      (∀ c ∈ pre, is_json_ws c = true) → 1 + lmeasure (PyList.cons v vs) ≤ fuel →
      parse_items fuel (pre ++ (encode_items d v vs ++ rest)) =
        some (PyList.cons v vs, rest)) ∧
    (∀ (pre : List Char) (k : String) (v : PyVal) (kvs : PyObj) (d : Nat)
      (rest : List Char),
      (∀ c ∈ pre, is_json_ws c = true) → 1 + omeasure (PyObj.cons k v kvs) ≤ fuel →
      parse_members fuel (pre ++ (encode_members d k v kvs ++ rest)) =
        some (PyObj.cons k v kvs, rest)) := by
  intro fuel
  induction fuel with
  | zero =>
    refine ⟨?_, ?_, ?_⟩
    · intro v d rest hm _
      have := pmeasure_pos v
      omega
    · intro pre v vs d rest _ hm
      simp only [lmeasure] at hm
      omega
    · intro pre k v kvs d rest _ hm
      simp only [omeasure] at hm
      omega
  | succ f ih =>
    obtain ⟨ihv, ihi, ihm⟩ := ih
    refine ⟨?_, ?_, ?_⟩
    · -- one value
      intro v d rest hm hstop
      cases v with
      | pynone =>
        rw [show encode d PyVal.pynone = ['n', 'u', 'l', 'l'] from by rw [encode]]
        simp [parse_value, skip_ws, is_json_ws, expect_lit, is_prefix_of_l]
      | pybool b =>
        cases b
        · rw [show encode d (PyVal.pybool false) = ['f', 'a', 'l', 's', 'e'] from
            by rw [encode]]
          simp [parse_value, skip_ws, is_json_ws, expect_lit, is_prefix_of_l]
        · rw [show encode d (PyVal.pybool true) = ['t', 'r', 'u', 'e'] from by rw [encode]]
          simp [parse_value, skip_ws, is_json_ws, expect_lit, is_prefix_of_l]
      | pyint i =>
        obtain ⟨c, cs0, hcc, hc⟩ := int_repr_shape i
        have hf := num_head_facts hc
        rw [show encode d (PyVal.pyint i) = (int_repr i).data from by rw [encode]]
        rw [hcc, List.cons_append]
        simp only [parse_value]
        rw [skip_ws_cons hf.1]
        simp [hf.2.1, hf.2.2.1, hf.2.2.2.1, hf.2.2.2.2.1, hf.2.2.2.2.2.1, hf.2.2.2.2.2.2.1]
        rw [← List.cons_append, ← hcc, parse_number_rt i hstop]
      | pystr s =>
        have hshape : encode d (PyVal.pystr s) ++ rest =
            '"' :: (s.data.flatMap escape_char ++ ('"' :: rest)) := by
          rw [encode, encode_str]
          simp
        rw [hshape]
        have hlen : s.data.length < (s.data.flatMap escape_char ++ ('"' :: rest)).length := by
          rw [List.length_append]
          have := flatMap_escape_length s.data
          simp only [List.length_cons]
          omega
        simp only [parse_value]
        rw [skip_ws_cons (show is_json_ws '"' = false by simp [is_json_ws])]
        dsimp only
        rw [if_pos rfl]
        rw [parse_string_rt s.data _ rest [] hlen]
        dsimp only
        simp [string_key_eta]
      | pylist xs =>
        cases xs with
        | nil =>
          rw [show encode d (PyVal.pylist PyList.nil) = ['[', ']'] from by rw [encode]]
          simp [parse_value, skip_ws, is_json_ws]
        | cons v vs =>
          simp only [pmeasure] at hm
          rw [show encode d (PyVal.pylist (PyList.cons v vs)) =
              '[' :: '\n' :: (indent_at (d + 1) ++ encode_items d v vs) from by rw [encode]]
          simp only [List.cons_append, List.append_assoc]
          simp only [parse_value]
          rw [skip_ws_cons (show is_json_ws '[' = false by simp [is_json_ws])]
          dsimp only
          rw [if_neg (show ¬('[' : Char) = '"' by decide), if_pos rfl]
          rw [skip_ws_newline_indent (d + 1) (encode_items d v vs ++ rest)]
          obtain ⟨c2, cs2, hc2, hws2, hr2, hb2⟩ := encode_items_head d v vs
          rw [hc2, List.cons_append, skip_ws_cons hws2]
          dsimp only
          rw [if_neg hr2]
          rw [← List.cons_append, ← hc2]
          have harg := ihi [] v vs d rest (by simp) (by omega)
          rw [List.nil_append] at harg
          rw [harg]
      | pydict kvs =>
        cases kvs with
        | nil =>
          rw [show encode d (PyVal.pydict PyObj.nil) = ['{', '}'] from by rw [encode]]
          simp [parse_value, skip_ws, is_json_ws]
        | cons k v kvs =>
          simp only [pmeasure] at hm
          rw [show encode d (PyVal.pydict (PyObj.cons k v kvs)) =
              '{' :: '\n' :: (indent_at (d + 1) ++ encode_members d k v kvs) from
            by rw [encode]]
          simp only [List.cons_append, List.append_assoc]
          simp only [parse_value]
          rw [skip_ws_cons (show is_json_ws '{' = false by simp [is_json_ws])]
          dsimp only
          rw [if_neg (show ¬('{' : Char) = '"' by decide),
            if_neg (show ¬('{' : Char) = '[' by decide), if_pos rfl]
          rw [skip_ws_newline_indent (d + 1) (encode_members d k v kvs ++ rest)]
          have hhead : ∃ cs2, encode_members d k v kvs = '"' :: cs2 := by
            cases kvs <;>
              exact ⟨_, by rw [encode_members, encode_str, List.cons_append]⟩
          obtain ⟨cs2, hc2⟩ := hhead
          rw [hc2, List.cons_append,
            skip_ws_cons (show is_json_ws '"' = false by simp [is_json_ws])]
          dsimp only
          rw [if_neg (show ¬('"' : Char) = '}' by decide)]
          rw [← List.cons_append, ← hc2]
          have harg := ihm [] k v kvs d rest (by simp) (by omega)
          rw [List.nil_append] at harg
          rw [harg]
    · -- items of a non-empty array
      intro pre v vs d rest hpre hm
      simp only [lmeasure] at hm
      have hmv : pmeasure v ≤ f := by have := pmeasure_pos v; omega
      cases vs with
      | nil =>
        have hsh : pre ++ (encode_items d v PyList.nil ++ rest) =
            pre ++ (encode (d + 1) v ++ ('\n' :: (indent_at d ++ (']' :: rest)))) := by
          rw [encode_items]
          simp
        rw [hsh]
        simp only [parse_items]
        rw [parse_value_ws f pre _ hpre]
        rw [ihv v (d + 1) ('\n' :: (indent_at d ++ (']' :: rest))) hmv
          (num_stop_cons (by decide) (by decide) (by decide) (by decide) _)]
        dsimp only
        rw [skip_ws_newline_indent d (']' :: rest),
          skip_ws_cons (show is_json_ws ']' = false by simp [is_json_ws])]
        dsimp only
        rw [if_neg (show ¬(']' : Char) = ',' by decide), if_pos rfl]
      | cons w ws =>
        have hsh : pre ++ (encode_items d v (PyList.cons w ws) ++ rest) =
            pre ++ (encode (d + 1) v ++
              (',' :: '\n' :: (indent_at (d + 1) ++ (encode_items d w ws ++ rest)))) := by
          rw [encode_items]
          simp
        rw [hsh]
        simp only [parse_items]
        rw [parse_value_ws f pre _ hpre]
        rw [ihv v (d + 1)
          (',' :: '\n' :: (indent_at (d + 1) ++ (encode_items d w ws ++ rest))) hmv
          (num_stop_cons (by decide) (by decide) (by decide) (by decide) _)]
        dsimp only
        rw [skip_ws_cons (show is_json_ws ',' = false by simp [is_json_ws])]
        dsimp only
        rw [if_pos rfl]
        have hrec := ihi ('\n' :: indent_at (d + 1)) w ws d rest
          (by
            intro c hcin
            rcases List.mem_cons.mp hcin with h | h
            · subst h; simp [is_json_ws]
            · exact indent_all_ws (d + 1) c h)
          (by
            simp only [lmeasure] at hm ⊢
            have := pmeasure_pos v
            omega)
        rw [show ('\n' :: indent_at (d + 1)) ++ (encode_items d w ws ++ rest) =
            '\n' :: (indent_at (d + 1) ++ (encode_items d w ws ++ rest)) from rfl] at hrec
        rw [hrec]
    · -- members of a non-empty object
      intro pre k v kvs d rest hpre hm
      simp only [omeasure] at hm
      have hmv : pmeasure v ≤ f := by have := pmeasure_pos v; omega
      cases kvs with
      | nil =>
        have hsh : pre ++ (encode_members d k v PyObj.nil ++ rest) =
            pre ++ ('"' :: (k.data.flatMap escape_char ++ ('"' ::
              (':' :: ' ' :: (encode (d + 1) v ++
                ('\n' :: (indent_at d ++ ('}' :: rest)))))))) := by
          rw [encode_members, encode_str]
          simp
        rw [hsh]
        simp only [parse_members]
        rw [skip_ws_all_ws hpre]
        rw [skip_ws_cons (show is_json_ws '"' = false by simp [is_json_ws])]
        dsimp only
        rw [if_pos rfl]
        have hlen : k.data.length < (k.data.flatMap escape_char ++ ('"' ::
            (':' :: ' ' :: (encode (d + 1) v ++
              ('\n' :: (indent_at d ++ ('}' :: rest))))))).length := by
          rw [List.length_append]
          have := flatMap_escape_length k.data
          simp only [List.length_cons]
          omega
        rw [parse_string_rt k.data _ _ [] hlen]
        dsimp only
        rw [skip_ws_cons (show is_json_ws ':' = false by simp [is_json_ws])]
        dsimp only
        rw [if_pos rfl]
        rw [show (' ' :: (encode (d + 1) v ++ ('\n' :: (indent_at d ++ ('}' :: rest))))) =
            [' '] ++ (encode (d + 1) v ++ ('\n' :: (indent_at d ++ ('}' :: rest))))
          from rfl]
        rw [parse_value_ws f [' '] _ (by intro c hc; simp at hc; subst hc; simp [is_json_ws])]
        rw [ihv v (d + 1) ('\n' :: (indent_at d ++ ('}' :: rest))) hmv
          (num_stop_cons (by decide) (by decide) (by decide) (by decide) _)]
        dsimp only
        rw [skip_ws_newline_indent d ('}' :: rest),
          skip_ws_cons (show is_json_ws '}' = false by simp [is_json_ws])]
        dsimp only
        rw [if_neg (show ¬('}' : Char) = ',' by decide), if_pos rfl]
        simp [string_key_eta]
      | cons k2 v2 kvs =>
        have hsh : pre ++ (encode_members d k v (PyObj.cons k2 v2 kvs) ++ rest) =
            pre ++ ('"' :: (k.data.flatMap escape_char ++ ('"' ::
              (':' :: ' ' :: (encode (d + 1) v ++
                (',' :: '\n' :: (indent_at (d + 1) ++
                  (encode_members d k2 v2 kvs ++ rest)))))))) := by
          rw [encode_members, encode_str]
          simp
        rw [hsh]
        simp only [parse_members]
        rw [skip_ws_all_ws hpre]
        rw [skip_ws_cons (show is_json_ws '"' = false by simp [is_json_ws])]
        dsimp only
        rw [if_pos rfl]
        have hlen : k.data.length < (k.data.flatMap escape_char ++ ('"' ::
            (':' :: ' ' :: (encode (d + 1) v ++
              (',' :: '\n' :: (indent_at (d + 1) ++
                (encode_members d k2 v2 kvs ++ rest))))))).length := by
          rw [List.length_append]
          have := flatMap_escape_length k.data
          simp only [List.length_cons]
          omega
        rw [parse_string_rt k.data _ _ [] hlen]
        dsimp only
        rw [skip_ws_cons (show is_json_ws ':' = false by simp [is_json_ws])]
        dsimp only
        rw [if_pos rfl]
        rw [show (' ' :: (encode (d + 1) v ++ (',' :: '\n' :: (indent_at (d + 1) ++
            (encode_members d k2 v2 kvs ++ rest))))) =
            [' '] ++ (encode (d + 1) v ++ (',' :: '\n' :: (indent_at (d + 1) ++
              (encode_members d k2 v2 kvs ++ rest)))) from rfl]
        rw [parse_value_ws f [' '] _ (by intro c hc; simp at hc; subst hc; simp [is_json_ws])]
        rw [ihv v (d + 1)
          (',' :: '\n' :: (indent_at (d + 1) ++ (encode_members d k2 v2 kvs ++ rest))) hmv
          (num_stop_cons (by decide) (by decide) (by decide) (by decide) _)]
        dsimp only
        rw [skip_ws_cons (show is_json_ws ',' = false by simp [is_json_ws])]
        dsimp only
        rw [if_pos rfl]
        have hrec := ihm ('\n' :: indent_at (d + 1)) k2 v2 kvs d rest
          (by
            intro c hcin
            rcases List.mem_cons.mp hcin with h | h
            · subst h; simp [is_json_ws]
            · exact indent_all_ws (d + 1) c h)
          (by
            simp only [omeasure] at hm ⊢
            have := pmeasure_pos v
            omega)
        rw [show ('\n' :: indent_at (d + 1)) ++ (encode_members d k2 v2 kvs ++ rest) =
            '\n' :: (indent_at (d + 1) ++ (encode_members d k2 v2 kvs ++ rest)) from
          rfl] at hrec
        rw [hrec]
        dsimp only
        simp [string_key_eta]

/-! ## The parser budget: `loads` allots enough fuel for any encoded value -/
mutual
theorem encode_measure (d : Nat) (v : PyVal) : pmeasure v ≤ (encode d v).length := by
  cases v with
  | pynone => simp [pmeasure, encode]
  | pybool b => cases b <;> simp [pmeasure, encode]
  | pyint i =>
    obtain ⟨c, cs0, hsh, -⟩ := int_repr_shape i
    simp [pmeasure, encode, hsh]
  | pystr s =>
    simp only [pmeasure, encode, encode_str, List.length_cons]
    omega
  | pylist xs =>
    cases xs with
    | nil => simp [pmeasure, lmeasure, encode]
    | cons w ws =>
      have h := items_measure d w ws
      simp only [pmeasure, encode, List.length_cons, List.length_append] at h ⊢
      omega
  | pydict kvs =>
    cases kvs with
    | nil => simp [pmeasure, omeasure, encode]
    | cons k w kws =>
      have h := members_measure d k w kws
      simp only [pmeasure, encode, List.length_cons, List.length_append] at h ⊢
      omega
termination_by sizeOf v

theorem items_measure (d : Nat) (v : PyVal) (vs : PyList) :
    1 + lmeasure (PyList.cons v vs) ≤ (encode_items d v vs).length := by
  cases vs with
  | nil =>
    have h := encode_measure (d + 1) v
    simp only [lmeasure, encode_items, List.length_append, List.length_cons] at h ⊢
    omega
  | cons w ws =>
    have h := encode_measure (d + 1) v
    have h2 := items_measure d w ws
    simp only [lmeasure, encode_items, List.length_append, List.length_cons] at h h2 ⊢
    omega
termination_by sizeOf v + sizeOf vs

theorem members_measure (d : Nat) (k : String) (v : PyVal) (kvs : PyObj) :
    1 + omeasure (PyObj.cons k v kvs) ≤ (encode_members d k v kvs).length := by
  cases kvs with
  | nil =>
    have h := encode_measure (d + 1) v
    simp only [omeasure, encode_members, List.length_append, List.length_cons] at h ⊢
    omega
  | cons k2 w kws =>
    have h := encode_measure (d + 1) v
    have h2 := members_measure d k2 w kws
    simp only [omeasure, encode_members, List.length_append, List.length_cons] at h h2 ⊢
    omega
termination_by sizeOf v + sizeOf kvs
end

/-- `json.load` after `json.dump(indent=2)` returns the original value. -/
theorem loads_dumps (v : PyVal) : loads (dumps v) = some v := by
  rw [dumps, loads]
  have hfuel : pmeasure v ≤ (encode 0 v).length + 1 :=
    le_trans (encode_measure 0 v) (Nat.le_succ _)
  have h := (parse_rt ((encode 0 v).length + 1)).1 v 0 [] hfuel (by trivial)
  rw [List.append_nil] at h
  rw [h]
  simp [skip_ws]

/-! ## C1: the JSON cache round trip -/
/-- **C1.**  A configuration fetched from Sheets and written with
`save_config_to_cache` is returned intact by `load_config_from_cache`
for the same term and course: the cache round trip is the identity on
the configuration, so a build from the cache sees exactly the
configuration the Sheets build produced. -/
theorem c1_cache_round_trip (store : CacheStore) (term course : String)
    (env : Env) (course_code t : String) :
    load_config_from_cache
        (save_config_to_cache store term course (fetch_course_config env course_code t).1)
        term course =
      some (fetch_course_config env course_code t).1 := by
  unfold load_config_from_cache save_config_to_cache
  simp [loads_dumps]

/-! ## C2: a failed table warns and defaults, it does not abort -/
/-- With no office-hours map, every instructor the loop builds has an
empty `office_hours` list. -/
theorem instructors_fold_oh_nil (sd : List (String × SectionDetail))
    (records : List Record) (acc : List Instructor)
    (hacc : ∀ i ∈ acc, i.office_hours = []) :
    ∀ i ∈ records.foldl (fun acc r =>
        if ¬ py_truthy (rget r "Name" "") then acc
        else acc ++ [mk_instructor sd [] r]) acc,
      i.office_hours = [] := by
  induction records generalizing acc with
  | nil => exact hacc
  | cons r rs ih =>
    intro i hi
    refine ih _ ?_ i hi
    intro j hj
    dsimp only at hj
    by_cases hname : ¬ py_truthy (rget r "Name" "")
    · rw [if_pos hname] at hj
      exact hacc j hj
    · rw [if_neg hname] at hj
      rcases List.mem_append.mp hj with hj | hj
      · exact hacc j hj
      · rcases List.mem_singleton.mp hj with rfl
        simp [mk_instructor, assocGet?]

/-- **C2.**  When the Office Hours fetch raises, `_fetch_instructors`
prints its warning and gives every instructor an empty `office_hours`
list, and `fetch_course_config` still returns a configuration dict
instead of propagating the exception. -/
theorem c2_missing_table_warns_and_defaults (env : Env) (course_code term : String)
    (h : env "Office Hours" = .error ()) :
    (∀ inst ∈ (fetch_instructors env).1, inst.office_hours = []) ∧
    "Warning: Could not fetch Office Hours" ∈ (fetch_instructors env).2 ∧
    ∃ kvs, (fetch_course_config env course_code term).1 = .pydict kvs := by
  refine ⟨?_, ?_, ⟨_, rfl⟩⟩
  · intro inst hinst
    rcases hins : env "Instructors" with u | records
    · rw [fetch_instructors, h, hins] at hinst
      simp at hinst
    · rw [fetch_instructors, h, hins] at hinst
      simp only at hinst
      exact instructors_fold_oh_nil _ records [] (by intro j hj; simp at hj) inst hinst
  · rcases hins : env "Instructors" with u | records <;>
      rcases hls : env "Lecture Sections" with v | ls <;>
        simp [fetch_instructors, h, hins, hls]

/-! ## C9: the fixed top-level key set -/
/-- **C9.**  For every spreadsheet, `fetch_course_config` returns a dict
with exactly the twelve fixed top-level keys, in construction order, and
`office_hours_embed_url` maps to the configured URL — the empty string
when none is configured. -/
theorem c9_fixed_top_level_keys (env : Env) (course_code term : String) :
    config_keys (fetch_course_config env course_code term).1 =
      ["course", "instructors", "mwf_sections", "tuesday_sections", "exams",
       "important_dates", "policies", "grading", "learning_targets",
       "quiz_schedule", "la_sessions", "office_hours_embed_url"] ∧
    config_get (fetch_course_config env course_code term).1 "office_hours_embed_url" =
      some (.pystr (get_office_hours_embed_url env)) := by
  constructor
  · rfl
  · by_cases h : py_truthy (get_office_hours_embed_url env)
    · simp [fetch_course_config, config_get, PyObj.ofList, PyObj.get?, h]
    · have hu : get_office_hours_embed_url env = "" := by
        by_contra hne
        exact h (by simp [py_truthy, hne])
      simp [fetch_course_config, config_get, PyObj.ofList, PyObj.get?, hu, py_truthy]

/-! ## C10: the two shapes of `la_sessions` -/
/-- **C10.**  `_fetch_la_sessions` returns the empty dict when the LA
Sessions fetch raises or no row has both a Days and a Time value, and
the two-key `location`/`schedule` dict otherwise. -/
theorem c10_la_sessions_two_shapes (env : Env) :
    (∀ u, env "LA Sessions" = .error u → (fetch_la_sessions env).1 = .pydict .nil) ∧
    (∀ rows, env "LA Sessions" = .ok rows →
      (la_schedule_of rows = [] → (fetch_la_sessions env).1 = .pydict .nil) ∧
      (la_schedule_of rows ≠ [] → (fetch_la_sessions env).1 =
        .pydict (.ofList [("location", .pystr (la_location env).1),
          ("schedule", .pylist (PyList.ofList ((la_schedule_of rows).map la_entry_py)))]))) := by
  constructor
  · intro u h
    simp [fetch_la_sessions, h]
  · intro rows h
    constructor
    · intro hs
      simp [fetch_la_sessions, h, hs]
    · intro hs
      simp [fetch_la_sessions, h, hs]

/-- C10 at a concrete input: an always-raising spreadsheet yields the
empty dict. -/
theorem c10_la_sessions_two_shapes_witness :
    (fetch_la_sessions env_fail).1 = .pydict .nil :=
  (c10_la_sessions_two_shapes env_fail).1 () rfl

/-- C2 at a concrete input. -/
theorem c2_missing_table_warns_and_defaults_witness :
    env_fail "Office Hours" = .error () ∧
    ((∀ inst ∈ (fetch_instructors env_fail).1, inst.office_hours = []) ∧
     "Warning: Could not fetch Office Hours" ∈ (fetch_instructors env_fail).2 ∧
     ∃ kvs, (fetch_course_config env_fail "MATH 140B" "Spring 2026").1 = .pydict kvs) :=
  ⟨rfl, c2_missing_table_warns_and_defaults env_fail "MATH 140B" "Spring 2026" rfl⟩

/-- **C3.**  `_get_time_period` buckets a section by the start hour
alone — the claim-side function computed from the text before the range
separator with AM/PM applied — with every unparseable or empty input
defaulting to Morning; the spec's four examples evaluate as claimed. -/
theorem c3_time_period_bucketing (s : String) :
    get_time_period s = claim_time_period s ∧
    get_time_period "9:00 AM" = "Morning" ∧
    get_time_period "10:30 AM" = "Late Morning" ∧
    get_time_period "2:00 PM" = "Afternoon" ∧
    get_time_period "6:00 PM" = "Evening" ∧
    get_time_period "" = "Morning" ∧
    get_time_period "after lunch" = "Morning" := by
  refine ⟨?_, by decide, by decide, by decide, by decide, by decide, by decide⟩
  unfold get_time_period claim_time_period claim_start_hour
  by_cases hempty : ¬ py_truthy s
  · simp [hempty]
  · simp only [if_neg hempty]
    rcases hint : py_int (py_strip ((py_split_char ':'
        (py_strip ((py_split_char '-' s).headD ""))).headD "")) with _ | h
    · simp [hint]
    · simp [hint]

/-! ## C6: exam classification -/
/-- A fold over rows none of which mentions Midterm 1 leaves
`midterm1_display` unchanged. -/
theorem exams_fold_m1_display (recs : List Record) (st : ExamsResult)
    (h : ∀ x ∈ recs, is_midterm1_row x = false) :
    (recs.foldl exams_step st).midterm1_display = st.midterm1_display := by
  induction recs generalizing st with
  | nil => rfl
  | cons r rs ih =>
    rw [List.foldl_cons, ih _ (fun x hx => h x (List.mem_cons_of_mem _ hx))]
    have hr : is_midterm1_row r = false := h r (List.mem_cons_self _ _)
    unfold exams_step
    rw [if_neg (by simp [hr])]
    repeat first | rfl | split

/-- A fold over rows none of which mentions Midterm 2 leaves
`midterm2_display` unchanged. -/
theorem exams_fold_m2_display (recs : List Record) (st : ExamsResult)
    (h : ∀ x ∈ recs, is_midterm2_row x = false) :
    (recs.foldl exams_step st).midterm2_display = st.midterm2_display := by
  induction recs generalizing st with
  | nil => rfl
  | cons r rs ih =>
    rw [List.foldl_cons, ih _ (fun x hx => h x (List.mem_cons_of_mem _ hx))]
    have hr : is_midterm2_row r = false := h r (List.mem_cons_self _ _)
    unfold exams_step
    split
    · rfl
    · rw [if_neg (by simp [hr])]
      repeat first | rfl | split

/-- **C6.**  `_fetch_exams` classifies each row into at most one slot by
substring match on the Event field, in `elif` priority order; a row
matching no substring leaves the result unchanged; and each midterm's
display date stays `"TBD"` exactly when no row matches that slot
(including when the fetch itself fails). -/
theorem c6_exam_classification (recs : List Record) (env : Env)
    (st : ExamsResult) (r : Record) :
    (is_midterm1_row r = false → is_midterm2_row r = false →
      is_makeup_row r = false → is_final_row r = false → exams_step st r = st) ∧
    (is_midterm1_row r = true → exams_step st r =
      { st with midterms := st.midterms ++ [mk_midterm "Midterm One" r],
                midterm1_display := format_display_date (rget r "Date" "") }) ∧
    (is_midterm1_row r = false → is_midterm2_row r = true → exams_step st r =
      { st with midterms := st.midterms ++ [mk_midterm "Midterm Two" r],
                midterm2_display := format_display_date (rget r "Date" "") }) ∧
    (is_midterm1_row r = false → is_midterm2_row r = false → is_makeup_row r = true →
      exams_step st r = { st with makeup_quiz_sessions := st.makeup_quiz_sessions ++
        [⟨rget r "Event" "", rget r "Date" "", rget r "Time" "",
          rget r "Location" "", rget r "Notes" ""⟩] }) ∧
    (is_midterm1_row r = false → is_midterm2_row r = false → is_makeup_row r = false →
      is_final_row r = true → exams_step st r =
        { st with final := (FinalExam.fromRow (rget r "Date" "") (rget r "Time" "")
            (rget r "Location" "")) }) ∧
    (env "Exams" = .ok recs → (∀ x ∈ recs, is_midterm1_row x = false) →
      (fetch_exams env).1.midterm1_display = "TBD") ∧
    (env "Exams" = .ok recs → (∀ x ∈ recs, is_midterm2_row x = false) →
      (fetch_exams env).1.midterm2_display = "TBD") ∧
    (∀ u, env "Exams" = .error u → (fetch_exams env).1 = exams_init) := by
  refine ⟨?_, ?_, ?_, ?_, ?_, ?_, ?_, ?_⟩
  · intro h1 h2 h3 h4
    simp [exams_step, h1, h2, h3, h4]
  · intro h1
    simp [exams_step, h1]
  · intro h1 h2
    simp [exams_step, h1, h2]
  · intro h1 h2 h3
    simp [exams_step, h1, h2, h3]
  · intro h1 h2 h3 h4
    simp [exams_step, h1, h2, h3, h4]
  · intro henv hall
    rw [fetch_exams, henv]
    exact exams_fold_m1_display recs exams_init hall
  · intro henv hall
    rw [fetch_exams, henv]
    exact exams_fold_m2_display recs exams_init hall
  · intro u henv
    rw [fetch_exams, henv]

/-- C6 at a concrete input: a review-session row matches no slot and
contributes nothing. -/
theorem c6_exam_classification_witness :
    exams_step exams_init [("Event", "Review Session"), ("Date", "May 1")] = exams_init :=
  (c6_exam_classification [] env_fail exams_init
      [("Event", "Review Session"), ("Date", "May 1")]).1
    (by decide) (by decide) (by decide) (by decide)

/-! ## C7: grade-threshold partition -/
/-- **C7 (amended).**  One step of the Grade Thresholds loop: a row with
an empty Grade is skipped; a row whose numeric fields parse is placed in
exactly one of the two mappings — `math197_thresholds` when the Course
field contains `"197"`, else `thresholds` — with an empty numeric field
resolved to `None`; and a row whose numeric field raises `ValueError`
aborts the loop, keeping only the rows already placed. -/
theorem c7_threshold_partition (rs : List Record) (r : Record)
    (st : List (String × Threshold) × List (String × Threshold)) :
    (rget r "Grade" "" = "" → thresholds_loop (r :: rs) st = thresholds_loop rs st) ∧
    (∀ c p, rget r "Grade" "" ≠ "" → threshold_complete r = some c →
      threshold_proficient r = some p → py_contains "197" (rget r "Course" "") = true →
      thresholds_loop (r :: rs) st =
        thresholds_loop rs (st.1, assocSet st.2 (rget r "Grade" "") ⟨c, p⟩)) ∧
    (∀ c p, rget r "Grade" "" ≠ "" → threshold_complete r = some c →
      threshold_proficient r = some p → py_contains "197" (rget r "Course" "") = false →
      thresholds_loop (r :: rs) st =
        thresholds_loop rs (assocSet st.1 (rget r "Grade" "") ⟨c, p⟩, st.2)) ∧
    (rget r "Grade" "" ≠ "" → threshold_complete r = none →
      thresholds_loop (r :: rs) st = (st, true)) ∧
    (∀ c, rget r "Grade" "" ≠ "" → threshold_complete r = some c →
      threshold_proficient r = none → thresholds_loop (r :: rs) st = (st, true)) ∧
    (rget r "Number Complete" "" = "" → rget r "Min Complete" "" = "" →
      threshold_complete r = some none) ∧
    (rget r "Number Proficient" "" = "" → rget r "Min Proficient" "" = "" →
      threshold_proficient r = some none) := by
  refine ⟨?_, ?_, ?_, ?_, ?_, ?_, ?_⟩
  · intro h
    simp [thresholds_loop, py_truthy, h]
  · intro c p h hc hp h197
    rw [thresholds_loop, if_neg (by simp [py_truthy, h]), hc, hp]
    simp [h197]
  · intro c p h hc hp h197
    rw [thresholds_loop, if_neg (by simp [py_truthy, h]), hc, hp]
    simp [h197]
  · intro h hc
    rw [thresholds_loop, if_neg (by simp [py_truthy, h]), hc]
  · intro c h hc hp
    rw [thresholds_loop, if_neg (by simp [py_truthy, h]), hc, hp]
  · intro h1 h2
    simp [threshold_complete, h1, h2, cell_or, cell_truthy, py_truthy]
  · intro h1 h2
    simp [threshold_proficient, h1, h2, cell_or, cell_truthy, py_truthy]

/-- C7 counterexample: a malformed numeric cell makes `int(...)` raise,
so the row with Grade `"A"` is placed in neither mapping — and the
well-formed Grade `"B"` row after it is dropped too: not every row with
a non-empty Grade is placed. -/
theorem c7_threshold_partition_counterexample :
    thresholds_loop
        [[("Grade", "A"), ("Course", "MATH 140B"), ("Number Complete", "n/a")],
         [("Grade", "B"), ("Course", "MATH 140B"), ("Number Complete", "19"),
          ("Number Proficient", "15")]] ([], []) = (([], []), true) ∧
    rget [("Grade", "A"), ("Course", "MATH 140B"), ("Number Complete", "n/a")]
      "Grade" "" ≠ "" := by
  constructor
  · rfl
  · decide

/-- C7 at a concrete input: a well-formed non-197 row is placed in
`thresholds` with empty numerics resolved to `None`. -/
theorem c7_threshold_partition_witness :
    thresholds_loop [[("Grade", "C"), ("Course", "MATH 140B"),
        ("Number Complete", "15")]] ([], []) =
      thresholds_loop [] ([("C", (⟨some 15, none⟩ : Threshold))], []) :=
  ((c7_threshold_partition [] [("Grade", "C"), ("Course", "MATH 140B"),
      ("Number Complete", "15")] ([], [])).2.2.1 (some 15) none
    (by decide) (by rfl) (by rfl) (by rfl))

/-- One step of the Learning Targets loop adds exactly the row's
contribution to `essential`. -/
theorem lt_step_essential (st : List Int × List LearningTarget) (r : Record) :
    (lt_step st r).1 = st.1 ++ (lt_contribution r).toList := by
  unfold lt_step lt_contribution
  by_cases hid : py_truthy (py_or (rget r "LT ID" "") (rget r "LT_ID" ""))
  · rw [if_neg (by simp [hid]), if_pos hid]
    dsimp only
    by_cases hess : is_essential_flag (rget r "Essential" "")
    · rw [if_pos hess, if_pos hess]
      rcases hnum : essential_num (py_or (rget r "LT ID" "") (rget r "LT_ID" "")) with _ | n <;>
        simp
    · rw [if_neg hess, if_neg hess]
      simp
  · rw [if_pos hid, if_neg hid]
    simp

/-- The `essential` component of the Learning Targets fold is one
`lt_contribution` per row, in order. -/
theorem lt_fold_essential (recs : List Record)
    (st : List Int × List LearningTarget) :
    (recs.foldl lt_step st).1 = st.1 ++ recs.filterMap lt_contribution := by
  induction recs generalizing st with
  | nil => simp
  | cons r rs ih =>
    rw [List.foldl_cons, ih, lt_step_essential, List.filterMap_cons]
    rcases hc : lt_contribution r with _ | n <;> simp

/-- **C8 (amended).**  Each Learning Targets row contributes to the
`essential` list exactly once when its flag is truthy
(`"true"/"yes"/"1"/"x"`, case-insensitively) and its identifier contains
a digit — contributing `int` of the concatenation of *all* digit
characters of the identifier, not of its numeric suffix; rows with any
other flag contribute nothing.  For `"LT7"` / `"Yes"` the contribution
is the integer 7, exactly once. -/
theorem c8_essential_targets (env : Env) (recs : List Record) (r : Record) :
    (env "Learning Targets" = .ok recs →
      (fetch_learning_targets env).1.essential = recs.filterMap lt_contribution) ∧
    (is_essential_flag (rget r "Essential" "") = false → lt_contribution r = none) ∧
    lt_contribution [("LT ID", "LT7"), ("Essential", "Yes")] = some 7 ∧
    (recs.filterMap lt_contribution).count 7 =
      (recs.filter (fun x => lt_contribution x = some 7)).length ∧
    essential_num "LT7" = some 7 := by
  refine ⟨?_, ?_, by decide, ?_, by decide⟩
  · intro henv
    rw [fetch_learning_targets]
    rw [henv]
    simp only
    rw [lt_fold_essential]
    simp
  · intro h
    unfold lt_contribution
    rcases hid : py_truthy (py_or (rget r "LT ID" "") (rget r "LT_ID" "")) <;>
      simp [hid, h]
  · induction recs with
    | nil => rfl
    | cons x xs ih =>
      rw [List.filterMap_cons, List.filter_cons]
      rcases hx : lt_contribution x with _ | n
      · rw [if_neg (by simp [hx])]
        exact ih
      · by_cases h7 : n = 7
        · subst h7
          rw [if_pos (by simp [hx]), List.count_cons]
          simp [ih]
        · rw [if_neg (by simp [hx, h7]), List.count_cons]
          have hne : ¬ n = 7 := h7
          simp [ih, hne]

/-- C8 counterexample: for the identifier `"A1B2"` with a truthy flag
the code contributes `int("12")` — all digits concatenated — while the
numeric suffix is 2; the two disagree, and the configuration built from
such a row lists 12, not 2. -/
theorem c8_essential_targets_counterexample :
    essential_num "A1B2" = some 12 ∧
    claim_numeric_suffix "A1B2" = some 2 ∧
    essential_num "A1B2" ≠ claim_numeric_suffix "A1B2" ∧
    lt_contribution [("LT ID", "A1B2"), ("Essential", "yes")] = some 12 := by
  decide

/-- C8 at a concrete input: a spreadsheet with the single row
`LT7`/`Yes` yields `essential = [7]`. -/
theorem c8_essential_targets_witness :
    (fetch_learning_targets (fun name =>
        if name = "Learning Targets" then
          .ok [[("LT ID", "LT7"), ("Essential", "Yes")]]
        else .error ())).1.essential =
      ([[("LT ID", "LT7"), ("Essential", "Yes")]] : List Record).filterMap
        lt_contribution :=
  (c8_essential_targets (fun name =>
      if name = "Learning Targets" then
        .ok [[("LT ID", "LT7"), ("Essential", "Yes")]]
      else .error ())
    [[("LT ID", "LT7"), ("Essential", "Yes")]]
    []).1 (by rfl)

/-! ## C4: XP modification table generation -/
/-- **C4 (amended).**  For parsed settings `K`, `M` with `M ≥ 1` the
generated table has `M + 1` ordered bands labelled `"Less than K XP"`,
then `"iK-((i+1)K-1) XP"` for `0 < i < M`, then `"MK or more XP"`; for
`K = 250`, `M = 3` it is exactly the four claimed bands; and when the
settings fetch raises or a setting fails to parse, the fixed 4-band
default (thresholds 0/250/500/750, `max_mods` 3) is used.  (With
`M = 0` the table is the single band `"Less than K XP"`, not the
claimed pattern — see the counterexample.) -/
theorem c4_xp_modifications (K M : Int) (env : Env) :
    (1 ≤ M → ((xp_modifications K M).length : Int) = M + 1) ∧
    (1 ≤ M → ((xp_modifications K M).map XpBand.label).head? =
      some ("Less than " ++ int_repr K ++ " XP")) ∧
    (1 ≤ M → ((xp_modifications K M).map XpBand.label).getLast? =
      some (int_repr (M * K) ++ " or more XP")) ∧
    (∀ i : Nat, 0 < i → (i : Int) < M →
      ((xp_modifications K M).map XpBand.label)[i]? =
        some (int_repr ((i : Int) * K) ++ "-" ++
          int_repr (((i : Int) + 1) * K - 1) ++ " XP")) ∧
    xp_modifications 250 3 =
      [⟨0, 0, "Less than 250 XP", 3⟩, ⟨250, 1, "250-499 XP", 3⟩,
       ⟨500, 2, "500-749 XP", 3⟩, ⟨750, 3, "750 or more XP", 3⟩] ∧
    (∀ u, env "XP Modifications" = .error u →
      (fetch_grading env).1.modifications = xp_default_modifications) ∧
    (∀ rows, env "XP Modifications" = .ok rows →
      xp_settings_loop rows (250, 3) = none →
      (fetch_grading env).1.modifications = xp_default_modifications) := by
  refine ⟨?_, ?_, ?_, ?_, by decide, ?_, ?_⟩
  · intro hM
    simp only [xp_modifications, List.length_map, List.length_range]
    omega
  · intro hM
    have hn : (M + 1).toNat = M.toNat + 1 := by omega
    rw [xp_modifications, hn, List.range_succ_eq_map]
    simp [xp_band]
  · intro hM
    have hn : (M + 1).toNat = M.toNat + 1 := by omega
    have h0 : M.toNat ≠ 0 := by omega
    have hMM : ((M.toNat : Nat) : Int) = M := by omega
    rw [xp_modifications, hn, List.range_succ]
    rw [List.map_append, List.map_append]
    simp [xp_band, h0, hMM]
  · intro i hi hiM
    have hlt : i < (M + 1).toNat := by omega
    have h0 : ¬ i = 0 := by omega
    have hM : ¬ ((i : Nat) : Int) = M := by omega
    simp [xp_modifications, List.getElem?_range, hlt, xp_band, h0, hM]
  · intro u h
    simp [fetch_grading, h]
  · intro rows h hloop
    simp [fetch_grading, h, hloop]

/-- C4 counterexample: with `M = 0` (maximum modification count 0) the
generated list is the single band labelled `"Less than 250 XP"` — one
band, whose last label is not the claimed closing band
`"MK or more XP"` (which would read `"0 or more XP"`). -/
theorem c4_xp_modifications_counterexample :
    xp_modifications 250 0 = [⟨0, 0, "Less than 250 XP", 0⟩] ∧
    (xp_modifications 250 0).length = 0 + 1 ∧
    ((xp_modifications 250 0).map XpBand.label).getLast? ≠ some "0 or more XP" ∧
    int_repr (0 * 250) ++ " or more XP" = "0 or more XP" := by
  decide

/-- C4 at concrete inputs: `M = 2` has three bands, and an unavailable
settings table falls back to the fixed default. -/
theorem c4_xp_modifications_witness :
    ((xp_modifications 7 2).length : Int) = 2 + 1 ∧
    (fetch_grading env_fail).1.modifications = xp_default_modifications :=
  ⟨(c4_xp_modifications 7 2 env_fail).1 (by decide),
   (c4_xp_modifications 7 2 env_fail).2.2.2.2.2.1 () rfl⟩

/-! ## C5: list-field parsing -/
theorem dropWhile_dropWhile {α : Type} (p : α → Bool) (l : List α) :
    (l.dropWhile p).dropWhile p = l.dropWhile p := by
  induction l with
  | nil => rfl
  | cons a as ih =>
    by_cases hp : p a
    · rw [List.dropWhile_cons_of_pos hp]
      exact ih
    · rw [List.dropWhile_cons_of_neg (by simp [hp]),
        List.dropWhile_cons_of_neg (by simp [hp])]

theorem dropWhile_head_false {α : Type} {p : α → Bool} {l : List α} {c : α}
    {rest : List α} (h : l.dropWhile p = c :: rest) : p c = false := by
  induction l with
  | nil => simp at h
  | cons a as ih =>
    by_cases hp : p a
    · rw [List.dropWhile_cons_of_pos hp] at h
      exact ih h
    · rw [List.dropWhile_cons_of_neg (by simp [hp])] at h
      rcases h with ⟨rfl, rfl⟩
      simp [hp]

/-- `str.strip()` is idempotent. -/
theorem strip_chars_idem (cs : List Char) :
    strip_chars (strip_chars cs) = strip_chars cs := by
  unfold strip_chars
  have h2 := dropWhile_dropWhile py_is_space (cs.dropWhile py_is_space).reverse
  cases hes : ((cs.dropWhile py_is_space).reverse.dropWhile py_is_space).reverse with
  | nil => simp [hes]
  | cons c cs2 =>
    have hds : cs.dropWhile py_is_space =
        (c :: cs2) ++ ((cs.dropWhile py_is_space).reverse.takeWhile py_is_space).reverse := by
      conv_lhs => rw [← List.reverse_reverse (cs.dropWhile py_is_space),
        ← List.takeWhile_append_dropWhile
          (p := py_is_space) (l := (cs.dropWhile py_is_space).reverse)]
      rw [List.reverse_append, hes]
    have hc : py_is_space c = false := dropWhile_head_false hds
    have hrev : (c :: cs2).reverse =
        (cs.dropWhile py_is_space).reverse.dropWhile py_is_space := by
      rw [← hes, List.reverse_reverse]
    rw [List.dropWhile_cons_of_neg (by simp [hc]), hrev, h2, ← hrev,
      List.reverse_reverse]

theorem py_strip_idem (s : String) : py_strip (py_strip s) = py_strip s := by
  simp [py_strip, strip_chars_idem]

/-- `strip_marker` of a stripped string is again a stripped string. -/
theorem strip_marker_image (x : String) :
    ∃ z, strip_marker (py_strip x) = py_strip z := by
  unfold strip_marker
  cases h : (py_strip x).data with
  | nil => exact ⟨x, rfl⟩
  | cons c cs =>
    dsimp only
    split
    · exact ⟨⟨cs⟩, rfl⟩
    · exact ⟨x, rfl⟩

/-- Every item the clean-up loop keeps is non-empty and stripped. -/
theorem clean_objective_items_mem (items : List String) :
    ∀ it ∈ clean_objective_items items, py_truthy it ∧ py_strip it = it := by
  intro it hit
  rcases List.mem_filter.mp hit with ⟨hmem, htr⟩
  rcases List.mem_map.mp hmem with ⟨raw, hraw, rfl⟩
  refine ⟨htr, ?_⟩
  rcases strip_marker_image raw with ⟨z, hz⟩
  rw [hz, py_strip_idem]

/-- **C5 (amended).**  `_parse_objectives_list` tries newline, then
semicolon, then the bullet character, then `"- "`, then a single item —
it never splits on pipe — while the prerequisites parser of
`_fetch_course_info` tries newline, then pipe — never semicolon or
bullet.  Both strip items and drop empties, the objectives parser also
strips one leading bullet/dash/star marker; every kept item is
non-empty and stripped; the two concrete examples of the spec hold for
the objectives parser; and both parsers are pure functions of the input
text. -/
theorem c5_list_field_parsing (s : String) :
    parse_objectives_list "A\nB\nC" = ["A", "B", "C"] ∧
    parse_objectives_list "A; B; C" = ["A", "B", "C"] ∧
    (py_truthy s → py_contains "\n" s = true →
      parse_objectives_list s = clean_objective_items (py_split_char '\n' s)) ∧
    (py_truthy s → py_contains "\n" s = false → py_contains ";" s = true →
      parse_objectives_list s = clean_objective_items (py_split_char ';' s)) ∧
    (py_truthy s → py_contains "\n" s = false → py_contains ";" s = false →
      py_contains bullet_str s = true →
      parse_objectives_list s = clean_objective_items (py_split_bullet s)) ∧
    (py_truthy s → py_contains "\n" s = false → py_contains ";" s = false →
      py_contains bullet_str s = false → py_contains "- " s = true →
      parse_objectives_list s = clean_objective_items (py_split_dash_space s)) ∧
    (py_truthy s → py_contains "\n" s = false → py_contains ";" s = false →
      py_contains bullet_str s = false → py_contains "- " s = false →
      parse_objectives_list s = clean_objective_items [s]) ∧
    (¬ py_truthy s → parse_objectives_list s = []) ∧
    (∀ it ∈ parse_objectives_list s, py_truthy it ∧ py_strip it = it) ∧
    (py_truthy s → py_contains "\n" s = true →
      parse_prerequisites s = ((py_split_char '\n' s).map py_strip).filter py_truthy) ∧
    (py_truthy s → py_contains "\n" s = false → py_contains "|" s = true →
      parse_prerequisites s = ((py_split_char '|' s).map py_strip).filter py_truthy) ∧
    (py_truthy s → py_contains "\n" s = false → py_contains "|" s = false →
      parse_prerequisites s = [py_strip s]) ∧
    (¬ py_truthy s → parse_prerequisites s = []) := by
  refine ⟨by decide, by decide, ?_, ?_, ?_, ?_, ?_, ?_, ?_, ?_, ?_, ?_, ?_⟩
  · intro ht h1
    simp [parse_objectives_list, ht, h1]
  · intro ht h1 h2
    simp [parse_objectives_list, ht, h1, h2]
  · intro ht h1 h2 h3
    simp [parse_objectives_list, ht, h1, h2, h3]
  · intro ht h1 h2 h3 h4
    simp [parse_objectives_list, ht, h1, h2, h3, h4]
  · intro ht h1 h2 h3 h4
    simp [parse_objectives_list, ht, h1, h2, h3, h4]
  · intro ht
    simp [parse_objectives_list, ht]
  · intro it hit
    by_cases ht : py_truthy s
    · unfold parse_objectives_list at hit
      rw [if_neg (by simp [ht])] at hit
      exact clean_objective_items_mem _ it hit
    · unfold parse_objectives_list at hit
      rw [if_pos (by simp [py_truthy] at ht ⊢; exact ht)] at hit
      simp at hit
  · intro ht h1
    simp [parse_prerequisites, ht, h1]
  · intro ht h1 h2
    simp [parse_prerequisites, ht, h1, h2]
  · intro ht h1 h2
    simp [parse_prerequisites, ht, h1, h2]
  · intro ht
    simp [parse_prerequisites, ht]

/-- C5 counterexample: the objectives parser does not attempt pipe
(`"A|B"` stays one item), and the prerequisites parser does not attempt
semicolon (`"A; B; C"` stays one item), contradicting the claimed
shared newline/semicolon/pipe/bullet priority order. -/
theorem c5_list_field_parsing_counterexample :
    parse_objectives_list "A|B" = ["A|B"] ∧
    parse_objectives_list "A|B" ≠ ["A", "B"] ∧
    parse_prerequisites "A; B; C" = ["A; B; C"] ∧
    parse_prerequisites "A; B; C" ≠ ["A", "B", "C"] := by
  decide

/-- C5 at a concrete input: the newline branch applies first. -/
theorem c5_list_field_parsing_witness :
    parse_objectives_list "x\ny" = clean_objective_items (py_split_char '\n' "x\ny") :=
  (c5_list_field_parsing "x\ny").2.2.1 (by decide) (by decide)

end Syllabi
